import Mathlib

/-!
Bug tracker: sanitizer, validator, CRUD router and form

A shallow embedding of `src/backend/utils/validation.js` (`sanitizeInput`,
`validateBugData`), of the five handlers of `src/backend/routes/bugs.js`, of the
health endpoint of `src/server.js` and of `validateForm` and `handleSubmit` of
`src/frontend/src/components/BugForm.js`, together with the fragment of JavaScript semantics
they rely on: truthiness, property lookup and assignment on a parsed JSON object,
`String.prototype.trim`, `String.prototype.replace` with the global pattern `/[<>]/g`,
and `Array.prototype.includes`. A handler is a function from the store's state to the
state it leaves and the events it produced (store calls, a response, `next(error)`);
the store is a parameter of the handlers.
-/

namespace BugTracker

/-! ## JavaScript values -/

/-- A JavaScript string is a sequence of UTF-16 code units; `length`, `trim` and a
regular expression without the `u` flag all work on code units. -/
abbrev JsString := List Nat

/-- UTF-16 encoding of a string literal of the source. -/
def utf16 (s : String) : JsString :=
  s.toList.flatMap fun c =>
    if c.toNat < 65536 then [c.toNat]
    else [55296 + (c.toNat - 65536) / 1024, 56320 + (c.toNat - 65536) % 1024]

/-- The values a request body can hold after `express.json()` has parsed it, plus
`undefined`, which is what reading a missing property yields. A number is kept as an
integer: the code under study only tests numbers for being zero. -/
inductive JsVal where
  | undefined : JsVal
  | null : JsVal
  | bool (b : Bool) : JsVal
  | num (n : Int) : JsVal
  | str (s : JsString) : JsVal
  | arr (items : List JsVal) : JsVal
  | obj (props : List (JsString × JsVal)) : JsVal

/-- A parsed JSON object: its own properties in insertion order. -/
abbrev JsObject := List (JsString × JsVal)

/-- The exception a handler can observe from the validator. -/
inductive JsError where
  | typeError : JsError
  deriving DecidableEq, Repr

/-- ToBoolean: `undefined`, `null`, `false`, `0` and `''` are falsy, all else truthy. -/
def truthy : JsVal → Bool
  | .undefined => false
  | .null => false
  | .bool b => b
  | .num n => n != 0
  | .str s => !s.isEmpty
  | .arr _ => true
  | .obj _ => true

/-- Property read `data.key` on a parsed JSON object, for a key that
`Object.prototype` does not define: the own property, else `undefined`. -/
def getProp (data : JsObject) (key : JsString) : JsVal :=
  match data.find? (fun kv => kv.1 == key) with
  | some kv => kv.2
  | none => .undefined

/-- WhiteSpace and LineTerminator code points of ECMAScript, the set `trim` strips. -/
def isWhiteSpace (c : Nat) : Bool :=
  c == 9 || c == 10 || c == 11 || c == 12 || c == 13 || c == 32 || c == 160 ||
  c == 5760 || (8192 ≤ c && c ≤ 8202) || c == 8232 || c == 8233 || c == 8239 ||
  c == 8287 || c == 12288 || c == 65279

/-- `String.prototype.trim`: strip white space from both ends. -/
def trim (s : JsString) : JsString :=
  (s.dropWhile isWhiteSpace).rdropWhile isWhiteSpace

/-- The character class `[<>]`. -/
def matchesAngle (c : Nat) : Bool :=
  c == '<'.toNat || c == '>'.toNat

/-- The call `str.replace(/[<>]/g, '')`: scan from the left; a code unit the class
matches is replaced by the empty string, any other is copied. -/
def replaceAngles : JsString → JsString
  | [] => []
  | c :: rest => if matchesAngle c then replaceAngles rest else c :: replaceAngles rest

/-- The method call `v.trim()`: only a string has a callable `trim`; on every other
value the call raises a `TypeError`. -/
def callTrim (v : JsVal) : Except JsError JsString :=
  match v with
  | .str s => .ok (trim s)
  | _ => .error .typeError

/-- SameValueZero restricted to values without identity; an array or object is never
the same value as a string literal. -/
def sameValueZero : JsVal → JsVal → Bool
  | .undefined, .undefined => true
  | .null, .null => true
  | .bool a, .bool b => a == b
  | .num a, .num b => a == b
  | .str a, .str b => a == b
  | _, _ => false

/-- `Array.prototype.includes` on an array of string literals. -/
def includes (xs : List JsString) (v : JsVal) : Bool :=
  xs.any fun x => sameValueZero (.str x) v

/-! ## `src/backend/utils/validation.js` -/

/-- The object `validateBugData` returns. -/
structure ValidationResult where
  isValid : Bool
  errors : List String
  deriving DecidableEq, Repr

def titleMessage : String := "Title must be at least 3 characters"
def descriptionMessage : String := "Description must be at least 10 characters"
def reporterMessage : String := "Reporter name is required"
def statusMessage : String := "Invalid status value"
def priorityMessage : String := "Invalid priority value"

def validStatuses : List JsString :=
  [utf16 "open", utf16 "in-progress", utf16 "resolved"]

def validPriorities : List JsString :=
  [utf16 "low", utf16 "medium", utf16 "high", utf16 "critical"]

/-- The function `validateBugData` of `validation.js`. -/
def validateBugData (data : JsObject) : Except JsError ValidationResult := do
  let errors : List String := []
  let titleBad ←
    (if !truthy (getProp data (utf16 "title")) then pure true
      else do
        let t ← callTrim (getProp data (utf16 "title"))
        pure (decide (t.length < 3)))
  let errors := if titleBad then errors ++ [titleMessage] else errors
  let descriptionBad ←
    (if !truthy (getProp data (utf16 "description")) then pure true
      else do
        let t ← callTrim (getProp data (utf16 "description"))
        pure (decide (t.length < 10)))
  let errors := if descriptionBad then errors ++ [descriptionMessage] else errors
  let reporterBad ←
    (if !truthy (getProp data (utf16 "reportedBy")) then pure true
      else do
        let t ← callTrim (getProp data (utf16 "reportedBy"))
        pure (t.length == 0))
  let errors := if reporterBad then errors ++ [reporterMessage] else errors
  let errors :=
    if truthy (getProp data (utf16 "status")) &&
        !includes validStatuses (getProp data (utf16 "status")) then
      errors ++ [statusMessage]
    else errors
  let errors :=
    if truthy (getProp data (utf16 "priority")) &&
        !includes validPriorities (getProp data (utf16 "priority")) then
      errors ++ [priorityMessage]
    else errors
  pure { isValid := errors.length == 0, errors := errors }

/-- The function `sanitizeInput` of `validation.js`. -/
def sanitizeInput (input : JsVal) : JsVal :=
  match input with
  | .str s => .str (replaceAngles (trim s))
  | other => other

/-! ## Vocabulary of the specification -/

/-- The first code unit of `t` exists and satisfies `p`. -/
def startsWith (p : Nat → Bool) (t : JsString) : Bool :=
  match t.head? with
  | some c => p c
  | none => false

/-- The last code unit of `t` exists and satisfies `p`. -/
def endsWith (p : Nat → Bool) (t : JsString) : Bool :=
  match t.getLast? with
  | some c => p c
  | none => false

/-- Deleting every `<` and `>` of a string, as the specification words it: the other
code units are kept, each unchanged and in its place relative to the others. -/
def deleteAngles (t : JsString) : JsString :=
  t.filter fun c => c != '<'.toNat && c != '>'.toNat

/-- The object has an own property `key`: the field is present in the body. -/
def hasOwn (data : JsObject) (key : JsString) : Bool :=
  (data.find? (fun kv => kv.1 == key)).isSome

/-- The field is a string or absent. -/
def isStringOrAbsent : JsVal → Bool
  | .undefined => true
  | .str _ => true
  | _ => false

/-- The field is missing, or it is a string whose trimmed length is below `n`. -/
def missingOrShorter (v : JsVal) (n : Nat) : Bool :=
  match v with
  | .undefined => true
  | .str s => decide ((trim s).length < n)
  | _ => false

/-- The field is missing, or it is a string whose trimmed length is 0. -/
def missingOrBlank (v : JsVal) : Bool :=
  match v with
  | .undefined => true
  | .str s => (trim s).length == 0
  | _ => false

/-- The field is falsy or a string: the values on which a required-field check of
`validateBugData` does not call `trim` on something that has none. -/
def trimSafe (v : JsVal) : Bool :=
  !truthy v ||
    match v with
    | .str _ => true
    | _ => false

/-- The field fails a required-field rule with bound `n`: it is falsy, or it is a
string whose trimmed length is below `n`. -/
def failsRequired (v : JsVal) (n : Nat) : Bool :=
  !truthy v ||
    match v with
    | .str s => decide ((trim s).length < n)
    | _ => false

/-- The error list `validateBugData` builds, as a function of the outcome of its five
conditions. -/
def errorsFor (titleBad descriptionBad reporterBad statusBad priorityBad : Bool) :
    List String :=
  let errors : List String := []
  let errors := if titleBad then errors ++ [titleMessage] else errors
  let errors := if descriptionBad then errors ++ [descriptionMessage] else errors
  let errors := if reporterBad then errors ++ [reporterMessage] else errors
  let errors := if statusBad then errors ++ [statusMessage] else errors
  let errors := if priorityBad then errors ++ [priorityMessage] else errors
  errors

/-- The five messages in rule order. -/
def allMessages : List String :=
  [titleMessage, descriptionMessage, reporterMessage, statusMessage, priorityMessage]

/-! ## Sample request bodies -/

/-- The body `{title: 'Valid Title', description: 'Valid description here',
reportedBy: 'John'}`. -/
def validBody : JsObject :=
  [(utf16 "title", .str (utf16 "Valid Title")),
   (utf16 "description", .str (utf16 "Valid description here")),
   (utf16 "reportedBy", .str (utf16 "John"))]

/-- The body `{title: 'ab', description: 'short', reportedBy: ''}`. -/
def shortBody : JsObject :=
  [(utf16 "title", .str (utf16 "ab")),
   (utf16 "description", .str (utf16 "short")),
   (utf16 "reportedBy", .str (utf16 ""))]

/-- A body with valid description and reporter and the given `title`. -/
def bodyWithTitle (title : JsVal) : JsObject :=
  [(utf16 "title", title),
   (utf16 "description", .str (utf16 "Valid description here")),
   (utf16 "reportedBy", .str (utf16 "John"))]

/-- The valid body extended with a `status` field. -/
def bodyWithStatus (status : JsVal) : JsObject :=
  validBody ++ [(utf16 "status", status)]

/-- The valid body extended with a `priority` field. -/
def bodyWithPriority (priority : JsVal) : JsObject :=
  validBody ++ [(utf16 "priority", priority)]

/-- The valid body extended with a `status` and a `priority` field. -/
def bodyWithEnums (status priority : JsVal) : JsObject :=
  validBody ++ [(utf16 "status", status), (utf16 "priority", priority)]

/-! ## `src/backend/routes/bugs.js` -/

/-- Property write `obj[key] = value`: an own property is overwritten in place, a new
one is added after the others. -/
def setProp (o : JsObject) (key : JsString) (value : JsVal) : JsObject :=
  if hasOwn o key then o.map fun kv => if kv.1 == key then (kv.1, value) else kv
  else o ++ [(key, value)]

/-- `Object.keys`: the own property names in insertion order. -/
def objectKeys (o : JsObject) : List JsString :=
  o.map Prod.fst

/-- The test `typeof v === 'string'`. -/
def typeofString : JsVal → Bool
  | .str _ => true
  | _ => false

/-- The parts of an Express request the handlers read: `req.params.id`, `req.query`
and `req.body`. -/
structure Request where
  id : JsString
  query : JsObject
  body : JsObject

/-- A call a handler makes on the `Bug` model. -/
inductive StoreCall where
  | find (filter sort : JsObject) : StoreCall
  | findById (id : JsString) : StoreCall
  | create (data : JsObject) : StoreCall
  | findByIdAndUpdate (id : JsString) (updates options : JsObject) : StoreCall
  | findByIdAndDelete (id : JsString) : StoreCall

/-- What a `try` block can throw: an exception of the handler's own code, or the
rejection of a store call. -/
inductive Thrown (ε : Type) where
  | js (e : JsError) : Thrown ε
  | store (e : ε) : Thrown ε

/-- What a handler does that the outside can see, in order: a store call, a response
`res.status(status).json(body)`, or `next(error)`. -/
inductive Event (ε : Type) where
  | call (c : StoreCall) : Event ε
  | respond (status : Nat) (body : JsObject) : Event ε
  | next (error : Thrown ε) : Event ε

/-- A finished run of a handler: the state the store is left in and the events. -/
structure Run (σ ε : Type) where
  state : σ
  events : List (Event ε)

/-- The `Bug` model the router requires from `../models/Bug`, as the handlers use it:
each operation either resolves with a value or rejects with an error, and leaves the
store in some state. `find filter sort` is `Bug.find(filter).sort(sort)`. -/
structure Store (σ ε : Type) where
  find : JsObject → JsObject → σ → Except ε (List JsVal) × σ
  findById : JsString → σ → Except ε JsVal × σ
  create : JsObject → σ → Except ε JsVal × σ
  findByIdAndUpdate : JsString → JsObject → JsObject → σ → Except ε JsVal × σ
  findByIdAndDelete : JsString → σ → Except ε JsVal × σ

/-- The body `{success: false, error: 'Bug not found'}`. -/
def notFoundBody : JsObject :=
  [(utf16 "success", .bool false), (utf16 "error", .str (utf16 "Bug not found"))]

/-- The filter `router.get('/')` builds from `req.query` (lines 9 to 13). -/
def listFilter (query : JsObject) : JsObject :=
  let status := getProp query (utf16 "status")
  let priority := getProp query (utf16 "priority")
  let filter : JsObject := []
  let filter := if truthy status then setProp filter (utf16 "status") status else filter
  let filter := if truthy priority then setProp filter (utf16 "priority") priority else filter
  filter

/-- The sort argument `{ createdAt: -1 }`. -/
def newestFirst : JsObject :=
  [(utf16 "createdAt", .num (-1))]

/-- The handler `router.get('/')`: get all bugs. -/
def listBugs {σ ε : Type} (store : Store σ ε) (req : Request) (s : σ) : Run σ ε :=
  let filter := listFilter req.query
  match store.find filter newestFirst s with
  | (.ok bugs, s1) =>
    { state := s1
      events :=
        [.call (.find filter newestFirst),
         .respond 200
           [(utf16 "success", .bool true), (utf16 "count", .num bugs.length),
            (utf16 "data", .arr bugs)]] }
  | (.error e, s1) =>
    { state := s1, events := [.call (.find filter newestFirst), .next (.store e)] }

/-- The handler `router.get('/:id')`: get a single bug. -/
def getBug {σ ε : Type} (store : Store σ ε) (req : Request) (s : σ) : Run σ ε :=
  match store.findById req.id s with
  | (.ok bug, s1) =>
    if !truthy bug then
      { state := s1, events := [.call (.findById req.id), .respond 404 notFoundBody] }
    else
      { state := s1
        events :=
          [.call (.findById req.id),
           .respond 200 [(utf16 "success", .bool true), (utf16 "data", bug)]] }
  | (.error e, s1) => { state := s1, events := [.call (.findById req.id), .next (.store e)] }

/-- The object `sanitizedData` that `router.post('/')` builds (lines 60 to 67). -/
def sanitizedData (body : JsObject) : JsObject :=
  [(utf16 "title", sanitizeInput (getProp body (utf16 "title"))),
   (utf16 "description", sanitizeInput (getProp body (utf16 "description"))),
   (utf16 "reportedBy", sanitizeInput (getProp body (utf16 "reportedBy"))),
   (utf16 "status",
     if truthy (getProp body (utf16 "status")) then getProp body (utf16 "status")
     else .str (utf16 "open")),
   (utf16 "priority",
     if truthy (getProp body (utf16 "priority")) then getProp body (utf16 "priority")
     else .str (utf16 "medium")),
   (utf16 "assignedTo",
     if truthy (getProp body (utf16 "assignedTo")) then
       sanitizeInput (getProp body (utf16 "assignedTo"))
     else .str (utf16 "Unassigned"))]

/-- The array `validation.errors` as a JSON value. -/
def errorDetails (errors : List String) : JsVal :=
  .arr (errors.map fun m => .str (utf16 m))

/-- The handler `router.post('/')`: create a new bug. -/
def createBug {σ ε : Type} (store : Store σ ε) (req : Request) (s : σ) : Run σ ε :=
  match validateBugData req.body with
  | .error e => { state := s, events := [.next (.js e)] }
  | .ok validation =>
    if !validation.isValid then
      { state := s
        events :=
          [.respond 400
            [(utf16 "success", .bool false), (utf16 "error", .str (utf16 "Validation failed")),
             (utf16 "details", errorDetails validation.errors)]] }
    else
      match store.create (sanitizedData req.body) s with
      | (.ok bug, s1) =>
        { state := s1
          events :=
            [.call (.create (sanitizedData req.body)),
             .respond 201 [(utf16 "success", .bool true), (utf16 "data", bug)]] }
      | (.error e, s1) =>
        { state := s1
          events := [.call (.create (sanitizedData req.body)), .next (.store e)] }

/-- The array `allowedUpdates`. -/
def allowedUpdates : List JsString :=
  [utf16 "title", utf16 "description", utf16 "status", utf16 "priority", utf16 "assignedTo"]

/-- The object `updates` that `router.put('/:id')` builds with its `forEach` over
`Object.keys(req.body)` (lines 92 to 101). -/
def buildUpdates (body : JsObject) : JsObject :=
  (objectKeys body).foldl
    (fun updates key =>
      if includes allowedUpdates (.str key) then
        setProp updates key
          (if typeofString (getProp body key) then sanitizeInput (getProp body key)
           else getProp body key)
      else updates)
    []

/-- The options `{ new: true, runValidators: true }`. -/
def updateOptions : JsObject :=
  [(utf16 "new", .bool true), (utf16 "runValidators", .bool true)]

/-- The handler `router.put('/:id')`: update a bug. -/
def updateBug {σ ε : Type} (store : Store σ ε) (req : Request) (s : σ) : Run σ ε :=
  match store.findById req.id s with
  | (.error e, s1) => { state := s1, events := [.call (.findById req.id), .next (.store e)] }
  | (.ok bug, s1) =>
    if !truthy bug then
      { state := s1, events := [.call (.findById req.id), .respond 404 notFoundBody] }
    else
      match store.findByIdAndUpdate req.id (buildUpdates req.body) updateOptions s1 with
      | (.ok updatedBug, s2) =>
        { state := s2
          events :=
            [.call (.findById req.id),
             .call (.findByIdAndUpdate req.id (buildUpdates req.body) updateOptions),
             .respond 200 [(utf16 "success", .bool true), (utf16 "data", updatedBug)]] }
      | (.error e, s2) =>
        { state := s2
          events :=
            [.call (.findById req.id),
             .call (.findByIdAndUpdate req.id (buildUpdates req.body) updateOptions),
             .next (.store e)] }

/-- The handler `router.delete('/:id')`: delete a bug. -/
def deleteBug {σ ε : Type} (store : Store σ ε) (req : Request) (s : σ) : Run σ ε :=
  match store.findById req.id s with
  | (.error e, s1) => { state := s1, events := [.call (.findById req.id), .next (.store e)] }
  | (.ok bug, s1) =>
    if !truthy bug then
      { state := s1, events := [.call (.findById req.id), .respond 404 notFoundBody] }
    else
      match store.findByIdAndDelete req.id s1 with
      | (.ok _, s2) =>
        { state := s2
          events :=
            [.call (.findById req.id), .call (.findByIdAndDelete req.id),
             .respond 200
               [(utf16 "success", .bool true),
                (utf16 "message", .str (utf16 "Bug deleted successfully"))]] }
      | (.error e, s2) =>
        { state := s2
          events :=
            [.call (.findById req.id), .call (.findByIdAndDelete req.id), .next (.store e)] }

/-! ## `src/server.js` -/

/-- The handler `app.get('/api/health')`; `res.json` answers with status 200. -/
def health {ε : Type} : List (Event ε) :=
  [.respond 200
    [(utf16 "success", .bool true), (utf16 "message", .str (utf16 "Server is running"))]]

/-! ## `src/frontend/src/components/BugForm.js` -/

/-- Optional chaining `v?.key` for one of the form's field names: `undefined` when `v`
is `null` or `undefined`, the own property when `v` is an object, and `undefined` on
the other values, which have no such property. -/
def optionalProp (v : JsVal) (key : JsString) : JsVal :=
  match v with
  | .obj props => getProp props key
  | _ => .undefined

/-- The state `formData` of `BugForm`. An input or select sets a field to a string;
the initial value of a field is whatever truthy value `initialData` holds for it. -/
structure FormData where
  title : JsVal
  description : JsVal
  reportedBy : JsVal
  priority : JsVal
  status : JsVal
  assignedTo : JsVal

/-- The object `formData` as `onSubmit` receives it and as the API client posts it. -/
def FormData.toObject (formData : FormData) : JsObject :=
  [(utf16 "title", formData.title), (utf16 "description", formData.description),
   (utf16 "reportedBy", formData.reportedBy), (utf16 "priority", formData.priority),
   (utf16 "status", formData.status), (utf16 "assignedTo", formData.assignedTo)]

/-- The initial `formData` that `useState` is given (lines 4 to 11), for the prop
`initialData` (`null` by default). -/
def initialFormData (initialData : JsVal) : FormData :=
  { title :=
      if truthy (optionalProp initialData (utf16 "title")) then
        optionalProp initialData (utf16 "title")
      else .str (utf16 "")
    description :=
      if truthy (optionalProp initialData (utf16 "description")) then
        optionalProp initialData (utf16 "description")
      else .str (utf16 "")
    reportedBy :=
      if truthy (optionalProp initialData (utf16 "reportedBy")) then
        optionalProp initialData (utf16 "reportedBy")
      else .str (utf16 "")
    priority :=
      if truthy (optionalProp initialData (utf16 "priority")) then
        optionalProp initialData (utf16 "priority")
      else .str (utf16 "medium")
    status :=
      if truthy (optionalProp initialData (utf16 "status")) then
        optionalProp initialData (utf16 "status")
      else .str (utf16 "open")
    assignedTo :=
      if truthy (optionalProp initialData (utf16 "assignedTo")) then
        optionalProp initialData (utf16 "assignedTo")
      else .str (utf16 "") }

/-- The state of the component: `formData` and `errors`. -/
structure FormState where
  formData : FormData
  errors : JsObject

/-- The function `validateForm` of `BugForm`: the object it hands to `setErrors` and the
boolean it returns, or the exception it raises before reaching `setErrors`. -/
def validateForm (formData : FormData) : Except JsError (JsObject × Bool) := do
  let newErrors : JsObject := []
  let titleBad ←
    (if !truthy formData.title then pure true
      else do
        let t ← callTrim formData.title
        pure (decide (t.length < 3)))
  let newErrors :=
    if titleBad then
      setProp newErrors (utf16 "title") (.str (utf16 "Title must be at least 3 characters"))
    else newErrors
  let descriptionBad ←
    (if !truthy formData.description then pure true
      else do
        let t ← callTrim formData.description
        pure (decide (t.length < 10)))
  let newErrors :=
    if descriptionBad then
      setProp newErrors (utf16 "description")
        (.str (utf16 "Description must be at least 10 characters"))
    else newErrors
  let reporterBad ←
    (if !truthy formData.reportedBy then pure true
      else do
        let t ← callTrim formData.reportedBy
        pure (t.length == 0))
  let newErrors :=
    if reporterBad then
      setProp newErrors (utf16 "reportedBy") (.str (utf16 "Reporter name is required"))
    else newErrors
  pure (newErrors, (objectKeys newErrors).length == 0)

/-- The form data `handleSubmit` resets to after a submission outside edit mode. -/
def blankForm : FormData :=
  { title := .str (utf16 ""), description := .str (utf16 ""), reportedBy := .str (utf16 "")
    priority := .str (utf16 "medium"), status := .str (utf16 "open")
    assignedTo := .str (utf16 "") }

/-- What a submit leaves: the next state of the component and the calls of the
`onSubmit` prop it made, in order. -/
structure Submission where
  state : FormState
  submitted : List FormData

/-- The function `handleSubmit` of `BugForm`, for the prop `initialData` (`null` when
the form is not in edit mode). An exception of `validateForm` leaves the handler before
any state is set and before `onSubmit` is called. -/
def handleSubmit (initialData : JsVal) (st : FormState) : Except JsError Submission :=
  match validateForm st.formData with
  | .error e => .error e
  | .ok (newErrors, valid) =>
    if valid then
      .ok
        { state :=
            { formData := if !truthy initialData then blankForm else st.formData
              errors := newErrors }
          submitted := [st.formData] }
    else .ok { state := { formData := st.formData, errors := newErrors }, submitted := [] }

/-! ## The store and the error path

The sources require `../models/Bug` and `./middleware/errorHandler` but do not contain
them; what follows is their behaviour as the specification describes it. -/

/-- Modelled from the spec: the failures of the bug record store (`models/Bug.js` and
the store engine are not in the sources). Section 7 names a validation failure, a
malformed identifier and an unexpected failure. -/
inductive StoreError where
  | validationError : StoreError
  | malformedId : StoreError
  | unexpected : StoreError
  deriving DecidableEq, Repr

/-- Modelled from the spec: the status the error middleware (`middleware/errorHandler.js`,
not in the sources) answers with, after section 7: 400 for a validation failure and for
a malformed identifier, 500 for anything else. -/
def errorStatus : Thrown StoreError → Nat
  | .store .validationError => 400
  | .store .malformedId => 400
  | _ => 500

/-- Modelled from the spec: the state of the bug record store (`models/Bug.js` is not in
the sources), a finite map from id to record kept in order of creation, with the
counter that ids and creation times are drawn from. -/
structure Db where
  docs : List (JsString × JsObject)
  clock : Nat

/-- Modelled from the spec: the enum constraint of section 3 on a write to the store
(`models/Bug.js` is not in the sources): `status` and `priority`, if present in the
input, must be one of the enumerated values or the write is rejected. -/
def enumRejected (data : JsObject) : Bool :=
  (hasOwn data (utf16 "status") && !includes validStatuses (getProp data (utf16 "status"))) ||
    (hasOwn data (utf16 "priority") &&
      !includes validPriorities (getProp data (utf16 "priority")))

/-- Modelled from the spec: the identifier the store assigns on create (the
store engine is not in the sources), here the counter as 24 hexadecimal digits. -/
def objectId (n : Nat) : JsString :=
  (List.replicate (24 - (Nat.toDigits 16 n).length) '0' ++ Nat.toDigits 16 n).map Char.toNat

/-- Modelled from the spec: exact match of a record against every condition of a
filter (the store engine is not in the sources). -/
def matchesFilter (doc filter : JsObject) : Bool :=
  filter.all fun kv => sameValueZero (getProp doc kv.1) kv.2

/-- Modelled from the spec: a patch applied to a record, field by field (the store
engine is not in the sources). -/
def applyUpdates (doc updates : JsObject) : JsObject :=
  updates.foldl (fun d kv => setProp d kv.1 kv.2) doc

/-- Modelled from the spec: the bug record store (`models/Bug.js` and the store engine
are not in the sources) as a finite map. `find` returns the records that match the
filter, newest first when that order is asked for; `findById` returns the record or
`null`; `create` assigns the id and the creation time; `findByIdAndUpdate` re-validates
the enums when `runValidators` is set and returns the updated record when `new` is
set; `findByIdAndDelete` removes the record. A rejected write changes nothing. -/
def mapStore : Store Db StoreError where
  find := fun filter sort db =>
    let hits := (db.docs.filter fun d => matchesFilter d.2 filter).map fun d => JsVal.obj d.2
    (.ok (if sameValueZero (getProp sort (utf16 "createdAt")) (.num (-1)) then hits.reverse
      else hits), db)
  findById := fun id db =>
    match db.docs.lookup id with
    | some doc => (.ok (.obj doc), db)
    | none => (.ok .null, db)
  create := fun data db =>
    if enumRejected data then (.error .validationError, db)
    else
      let doc :=
        setProp (setProp data (utf16 "_id") (.str (objectId db.clock))) (utf16 "createdAt")
          (.num db.clock)
      (.ok (.obj doc), { docs := db.docs ++ [(objectId db.clock, doc)], clock := db.clock + 1 })
  findByIdAndUpdate := fun id updates options db =>
    if truthy (getProp options (utf16 "runValidators")) && enumRejected updates then
      (.error .validationError, db)
    else
      match db.docs.lookup id with
      | none => (.ok .null, db)
      | some doc =>
        (.ok (.obj (if truthy (getProp options (utf16 "new")) then applyUpdates doc updates
          else doc)),
          { docs := db.docs.map fun d =>
              if d.1 == id then (d.1, applyUpdates d.2 updates) else d
            clock := db.clock })
  findByIdAndDelete := fun id db =>
    match db.docs.lookup id with
    | none => (.ok .null, db)
    | some doc => (.ok (.obj doc), { docs := db.docs.filter fun d => d.1 != id, clock := db.clock })

/-- The field `key` of a record the store returned. -/
def fieldOf (item : JsVal) (key : JsString) : JsVal :=
  match item with
  | .obj doc => getProp doc key
  | _ => .undefined

/-! ## Sample stores and requests -/

/-- The empty store. -/
def emptyDb : Db :=
  { docs := [], clock := 0 }

/-- The record `{title: 'Open Bug', description: 'Description', reportedBy: 'User',
status: 'open'}` of the integration tests. -/
def openBug : JsObject :=
  [(utf16 "title", .str (utf16 "Open Bug")), (utf16 "description", .str (utf16 "Description")),
   (utf16 "reportedBy", .str (utf16 "User")), (utf16 "status", .str (utf16 "open"))]

/-- The record `{title: 'Resolved Bug', description: 'Description', reportedBy: 'User',
status: 'resolved'}` of the integration tests. -/
def resolvedBug : JsObject :=
  [(utf16 "title", .str (utf16 "Resolved Bug")),
   (utf16 "description", .str (utf16 "Description")),
   (utf16 "reportedBy", .str (utf16 "User")), (utf16 "status", .str (utf16 "resolved"))]

/-- The store after `Bug.create` of the open and then of the resolved bug. -/
def twoBugsDb : Db :=
  (mapStore.create resolvedBug (mapStore.create openBug emptyDb).2).2

/-- The valid body extended with an `assignedTo` field. -/
def bodyWithAssignee (assignedTo : JsVal) : JsObject :=
  validBody ++ [(utf16 "assignedTo", assignedTo)]

/-- The body `{title: '<b>', description: '<<<<<>>>>>', reportedBy: '<>'}`. -/
def angleBody : JsObject :=
  [(utf16 "title", .str (utf16 "<b>")),
   (utf16 "description", .str (utf16 "<<<<<>>>>>")),
   (utf16 "reportedBy", .str (utf16 "<>"))]

/-- The record the store keeps for the valid body with `priority: 'high'`, created
first in an empty store. -/
def highDoc : JsObject :=
  sanitizedData (bodyWithPriority (.str (utf16 "high"))) ++
    [(utf16 "_id", .str (objectId 0)), (utf16 "createdAt", .num 0)]

/-- The update `{status: 'in-progress', assignedTo: ' <Developer> ', reportedBy: 'Eve',
_id: 'x', createdAt: 5, priority: 3}`. -/
def updateBody : JsObject :=
  [(utf16 "status", .str (utf16 "in-progress")),
   (utf16 "assignedTo", .str (utf16 " <Developer> ")),
   (utf16 "reportedBy", .str (utf16 "Eve")), (utf16 "_id", .str (utf16 "x")),
   (utf16 "createdAt", .num 5), (utf16 "priority", .num 3)]

/-- The update `{status: ' open '}`. -/
def paddedStatusBody : JsObject :=
  [(utf16 "status", .str (utf16 " open "))]

/-- The update `{status: 'bogus'}`. -/
def bogusStatusBody : JsObject :=
  [(utf16 "status", .str (utf16 "bogus"))]

/-- The HTTP statuses of the responses a run sent, in order. -/
def responseStatuses {ε : Type} (events : List (Event ε)) : List Nat :=
  events.filterMap fun e =>
    match e with
    | .respond status _ => some status
    | _ => none

/-- Every response among the events carries a boolean `success`, which is `true` with
status 200 or 201 and `false` with status 400 or 404. -/
def successMatchesStatus {ε : Type} (events : List (Event ε)) : Prop :=
  ∀ status body, Event.respond status body ∈ events →
    (getProp body (utf16 "success") = .bool true ∧ (status = 200 ∨ status = 201)) ∨
      (getProp body (utf16 "success") = .bool false ∧ (status = 400 ∨ status = 404))

/-- The query `?status=open`. -/
def openQuery : JsObject :=
  [(utf16 "status", .str (utf16 "open"))]

/-- The query `?status=`, whose status parameter is present and empty. -/
def emptyStatusQuery : JsObject :=
  [(utf16 "status", .str (utf16 ""))]

/-- The record the store keeps for the open bug of `twoBugsDb`. -/
def openDoc : JsObject :=
  openBug ++ [(utf16 "_id", .str (objectId 0)), (utf16 "createdAt", .num 0)]

/-- The store calls of a run, in order. -/
def storeCalls {ε : Type} (events : List (Event ε)) : List StoreCall :=
  events.filterMap fun e =>
    match e with
    | .call c => some c
    | _ => none

/-- The errors passed to `next` during a run, in order. -/
def thrownErrors {ε : Type} (events : List (Event ε)) : List (Thrown ε) :=
  events.filterMap fun e =>
    match e with
    | .next error => some error
    | _ => none

/-- The validation of the form passes: title a string of trimmed length at least 3,
description a string of trimmed length at least 10, reportedBy a string that is
non-empty after trimming. -/
def formPasses (formData : FormData) : Bool :=
  (match formData.title with
    | .str t => decide (3 ≤ (trim t).length)
    | _ => false) &&
    (match formData.description with
    | .str t => decide (10 ≤ (trim t).length)
    | _ => false) &&
    (match formData.reportedBy with
    | .str t => decide (trim t ≠ [])
    | _ => false)

/-- The form of the component test: `'Test Bug'`, `'This is a detailed description'`,
`'Test User'` and the defaults. -/
def testForm : FormData :=
  { title := .str (utf16 "Test Bug")
    description := .str (utf16 "This is a detailed description")
    reportedBy := .str (utf16 "Test User"), priority := .str (utf16 "medium")
    status := .str (utf16 "open"), assignedTo := .str (utf16 "") }

/-- A form with a title of two characters and a blank reporter. -/
def shortForm : FormData :=
  { title := .str (utf16 "ab"), description := .str (utf16 "This is a detailed description")
    reportedBy := .str (utf16 "  "), priority := .str (utf16 "high")
    status := .str (utf16 "resolved"), assignedTo := .str (utf16 "Developer") }

/-- The prop `initialData = {title: 12345, description: 'Existing description',
reportedBy: 'Original Reporter'}`. -/
def numericTitleData : JsVal :=
  .obj
    [(utf16 "title", .num 12345), (utf16 "description", .str (utf16 "Existing description")),
     (utf16 "reportedBy", .str (utf16 "Original Reporter"))]

/-- A request with the given id, query and body. -/
def request (id : JsString) (query body : JsObject) : Request :=
  { id := id, query := query, body := body }

/-! ## The sanitizer -/

theorem replaceAngles_eq_filter (t : JsString) :
    replaceAngles t = t.filter fun c => !matchesAngle c := by
  induction t with
  | nil => rfl
  | cons c rest ih =>
    by_cases h : matchesAngle c = true
    · simp [replaceAngles, h, ih]
    · simp [replaceAngles, h, ih]

theorem replaceAngles_eq_deleteAngles (t : JsString) : replaceAngles t = deleteAngles t := by
  rw [replaceAngles_eq_filter, deleteAngles]
  congr 1
  funext c
  simp [matchesAngle, Bool.not_or, bne]

theorem not_matchesAngle_of_mem_replaceAngles {t : JsString} {c : Nat}
    (h : c ∈ replaceAngles t) : matchesAngle c = false := by
  rw [replaceAngles_eq_filter, List.mem_filter] at h
  simpa using h.2

theorem startsWith_trim (s : JsString) : startsWith isWhiteSpace (trim s) = false := by
  unfold startsWith trim
  cases hu : (s.dropWhile isWhiteSpace).rdropWhile isWhiteSpace with
  | nil => rfl
  | cons c rest =>
    have hpre : c :: rest <+: s.dropWhile isWhiteSpace := hu ▸ List.rdropWhile_prefix _ _
    obtain ⟨tail, htail⟩ := hpre
    have hne : s.dropWhile isWhiteSpace ≠ [] := by
      rw [← htail]; simp
    have hhead := List.head_dropWhile_not isWhiteSpace s hne
    have : (s.dropWhile isWhiteSpace).head hne = c := by
      simp [← htail]
    rw [this] at hhead
    simpa using hhead

theorem endsWith_trim (s : JsString) : endsWith isWhiteSpace (trim s) = false := by
  unfold endsWith trim
  cases hu : ((s.dropWhile isWhiteSpace).rdropWhile isWhiteSpace).getLast? with
  | none => rfl
  | some c =>
    have hne : (s.dropWhile isWhiteSpace).rdropWhile isWhiteSpace ≠ [] := by
      intro h0; simp [h0] at hu
    have hlast := List.rdropWhile_last_not isWhiteSpace (s.dropWhile isWhiteSpace) hne
    rw [List.getLast?_eq_getLast _ hne] at hu
    simp only [Option.some.injEq] at hu
    rw [hu] at hlast
    simpa using hlast

theorem startsWith_replaceAngles (p : Nat → Bool) (t : JsString)
    (h : startsWith matchesAngle t = false) :
    startsWith p (replaceAngles t) = startsWith p t := by
  cases t with
  | nil => rfl
  | cons c rest =>
    have hc : matchesAngle c = false := by simpa [startsWith] using h
    simp [replaceAngles, hc, startsWith]

theorem endsWith_replaceAngles (p : Nat → Bool) (t : JsString)
    (h : endsWith matchesAngle t = false) :
    endsWith p (replaceAngles t) = endsWith p t := by
  rcases List.eq_nil_or_concat t with rfl | ⟨init, c, rfl⟩
  · rfl
  · have hc : matchesAngle c = false := by simpa [endsWith] using h
    simp [replaceAngles_eq_filter, List.filter_append, hc, endsWith]

/-- C1: for every string `s`, `sanitizeInput(s)` is a string that contains neither the
character `<` nor the character `>`. -/
theorem sanitizeInput_no_angle_brackets (s : JsString) :
    ∃ t, sanitizeInput (.str s) = .str t ∧ '<'.toNat ∉ t ∧ '>'.toNat ∉ t := by
  refine ⟨replaceAngles (trim s), rfl, ?_, ?_⟩
  · intro h
    have := not_matchesAngle_of_mem_replaceAngles h
    simp [matchesAngle] at this
  · intro h
    have := not_matchesAngle_of_mem_replaceAngles h
    simp [matchesAngle] at this

/-- C2, as stated, fails: `sanitizeInput("< a >")` is `" a "`, which begins and ends
with a space, because the angle brackets are deleted after the trimming. -/
theorem sanitizeInput_edge_whitespace_counterexample :
    sanitizeInput (.str (utf16 "< a >")) = .str (utf16 " a ") ∧
      startsWith isWhiteSpace (utf16 " a ") = true ∧
      endsWith isWhiteSpace (utf16 " a ") = true := by
  refine ⟨rfl, rfl, rfl⟩

/-- C2, amended: for every string `s`, `sanitizeInput(s)` does not begin with white
space unless the trimmed `s` begins with `<` or `>`, and does not end with white space
unless the trimmed `s` ends with `<` or `>`. -/
theorem sanitizeInput_no_edge_whitespace (s : JsString) :
    ∃ t, sanitizeInput (.str s) = .str t ∧
      (startsWith matchesAngle (trim s) = false → startsWith isWhiteSpace t = false) ∧
      (endsWith matchesAngle (trim s) = false → endsWith isWhiteSpace t = false) := by
  refine ⟨replaceAngles (trim s), rfl, ?_, ?_⟩
  · intro h
    rw [startsWith_replaceAngles _ _ h, startsWith_trim]
  · intro h
    rw [endsWith_replaceAngles _ _ h, endsWith_trim]

theorem sanitizeInput_no_edge_whitespace_witness :
    startsWith matchesAngle (trim (utf16 "  Hello World  ")) = false ∧
      endsWith matchesAngle (trim (utf16 "  Hello World  ")) = false ∧
      ∃ t, sanitizeInput (.str (utf16 "  Hello World  ")) = .str t ∧
        startsWith isWhiteSpace t = false ∧ endsWith isWhiteSpace t = false := by
  obtain ⟨t, ht, h1, h2⟩ := sanitizeInput_no_edge_whitespace (utf16 "  Hello World  ")
  exact ⟨rfl, rfl, t, ht, h1 rfl, h2 rfl⟩

/-- C3: for every string `s`, `sanitizeInput(s)` is the string obtained by trimming `s`
and then deleting every `<` and `>`; what remains is a subsequence of the trimmed
string, so the kept code units are unchanged and in their original order. -/
theorem sanitizeInput_eq_trim_then_delete (s : JsString) :
    sanitizeInput (.str s) = .str (deleteAngles (trim s)) ∧
      List.Sublist (deleteAngles (trim s)) (trim s) ∧
      ∀ c, c ≠ '<'.toNat → c ≠ '>'.toNat →
        (deleteAngles (trim s)).count c = (trim s).count c := by
  refine ⟨?_, List.filter_sublist _, ?_⟩
  · simp [sanitizeInput, replaceAngles_eq_deleteAngles]
  · intro c h1 h2
    unfold deleteAngles
    rw [List.count_filter]
    simpa using ⟨h1, h2⟩

/-- C4: for every value `v` that is not a string, `sanitizeInput(v)` is `v` itself. -/
theorem sanitizeInput_non_string (v : JsVal) (h : ∀ s, v ≠ .str s) : sanitizeInput v = v := by
  cases v with
  | str s => exact absurd rfl (h s)
  | _ => rfl

theorem sanitizeInput_non_string_witness :
    (∀ s, JsVal.num 123 ≠ .str s) ∧ sanitizeInput (.num 123) = .num 123 :=
  ⟨fun _ h => JsVal.noConfusion h, sanitizeInput_non_string (.num 123) (fun _ h => JsVal.noConfusion h)⟩

/-! ## The validator -/

theorem requiredCheck_lt (v : JsVal) (n : Nat) :
    (if (!truthy v) = true then (pure true : Except JsError Bool)
      else do
        let t ← callTrim v
        pure (decide (t.length < n))) =
      if trimSafe v = true then .ok (failsRequired v n) else .error .typeError := by
  cases v with
  | bool b => cases b <;> rfl
  | num k =>
    by_cases h : k = 0
    · subst h; rfl
    · simp [truthy, callTrim, trimSafe, h, pure, Except.pure]
      rfl
  | str s => cases s <;> rfl
  | _ => rfl

theorem requiredCheck_eq (v : JsVal) :
    (if (!truthy v) = true then (pure true : Except JsError Bool)
      else do
        let t ← callTrim v
        pure (t.length == 0)) =
      if trimSafe v = true then .ok (failsRequired v 1) else .error .typeError := by
  cases v with
  | bool b => cases b <;> rfl
  | num k =>
    by_cases h : k = 0
    · subst h; rfl
    · simp [truthy, callTrim, trimSafe, h, pure, Except.pure]
      rfl
  | str s =>
    cases s with
    | nil => rfl
    | cons c cs =>
      show Except.ok ((trim (c :: cs)).length == 0) =
        Except.ok (false || decide ((trim (c :: cs)).length < 1))
      cases trim (c :: cs) <;> rfl
  | _ => rfl

/-- The validator in closed form: it raises exactly when a required field is a truthy
non-string, and otherwise returns the list `errorsFor` builds. -/
theorem validateBugData_eq (d : JsObject) :
    validateBugData d =
      if (trimSafe (getProp d (utf16 "title")) && trimSafe (getProp d (utf16 "description")) &&
          trimSafe (getProp d (utf16 "reportedBy"))) = true then
        .ok
          { isValid :=
              (errorsFor (failsRequired (getProp d (utf16 "title")) 3)
                (failsRequired (getProp d (utf16 "description")) 10)
                (failsRequired (getProp d (utf16 "reportedBy")) 1)
                (truthy (getProp d (utf16 "status")) &&
                  !includes validStatuses (getProp d (utf16 "status")))
                (truthy (getProp d (utf16 "priority")) &&
                  !includes validPriorities (getProp d (utf16 "priority")))).length == 0
            errors :=
              errorsFor (failsRequired (getProp d (utf16 "title")) 3)
                (failsRequired (getProp d (utf16 "description")) 10)
                (failsRequired (getProp d (utf16 "reportedBy")) 1)
                (truthy (getProp d (utf16 "status")) &&
                  !includes validStatuses (getProp d (utf16 "status")))
                (truthy (getProp d (utf16 "priority")) &&
                  !includes validPriorities (getProp d (utf16 "priority"))) }
      else .error .typeError := by
  unfold validateBugData
  rw [requiredCheck_lt, requiredCheck_lt, requiredCheck_eq]
  generalize trimSafe (getProp d (utf16 "title")) = x1
  generalize trimSafe (getProp d (utf16 "description")) = x2
  generalize trimSafe (getProp d (utf16 "reportedBy")) = x3
  cases x1 <;> cases x2 <;> cases x3 <;> rfl

theorem validateBugData_returns {d : JsObject} {r : ValidationResult}
    (h : validateBugData d = .ok r) :
    r.errors =
        errorsFor (failsRequired (getProp d (utf16 "title")) 3)
          (failsRequired (getProp d (utf16 "description")) 10)
          (failsRequired (getProp d (utf16 "reportedBy")) 1)
          (truthy (getProp d (utf16 "status")) &&
            !includes validStatuses (getProp d (utf16 "status")))
          (truthy (getProp d (utf16 "priority")) &&
            !includes validPriorities (getProp d (utf16 "priority"))) ∧
      r.isValid = (r.errors.length == 0) := by
  rw [validateBugData_eq] at h
  split at h
  · cases h
    exact ⟨rfl, rfl⟩
  · cases h

theorem mem_errorsFor (a b c e f : Bool) :
    (titleMessage ∈ errorsFor a b c e f ↔ a = true) ∧
      (descriptionMessage ∈ errorsFor a b c e f ↔ b = true) ∧
      (reporterMessage ∈ errorsFor a b c e f ↔ c = true) ∧
      (statusMessage ∈ errorsFor a b c e f ↔ e = true) ∧
      (priorityMessage ∈ errorsFor a b c e f ↔ f = true) := by
  cases a <;> cases b <;> cases c <;> cases e <;> cases f <;>
    simp [errorsFor, titleMessage, descriptionMessage, reporterMessage, statusMessage,
      priorityMessage]

theorem errorsFor_sublist (a b c e f : Bool) : List.Sublist (errorsFor a b c e f) allMessages := by
  have h0 : List.Sublist ([] : List String) [] := List.Sublist.slnil
  have keep : ∀ (m : String) (xs ys : List String), List.Sublist xs ys →
      ∀ t : Bool, List.Sublist ((if t = true then [m] else []) ++ xs) (m :: ys) := by
    intro m xs ys h t
    cases t
    · exact List.Sublist.cons _ h
    · exact List.Sublist.cons₂ _ h
  have h := keep titleMessage _ _ (keep descriptionMessage _ _ (keep reporterMessage _ _
    (keep statusMessage _ _ (keep priorityMessage _ _ h0 f) e) c) b) a
  have heq : errorsFor a b c e f =
      (if a = true then [titleMessage] else []) ++
        ((if b = true then [descriptionMessage] else []) ++
          ((if c = true then [reporterMessage] else []) ++
            ((if e = true then [statusMessage] else []) ++
              ((if f = true then [priorityMessage] else []) ++ [])))) := by
    cases a <;> cases b <;> cases c <;> cases e <;> cases f <;> rfl
  rw [heq]
  exact h

theorem allMessages_nodup : allMessages.Nodup := by
  simp [allMessages, titleMessage, descriptionMessage, reporterMessage, statusMessage,
    priorityMessage]

theorem errorsFor_required (e f : Bool) :
    (errorsFor true true true e f).take 3 =
      [titleMessage, descriptionMessage, reporterMessage] := by
  cases e <;> cases f <;> rfl

theorem trim_nil : trim [] = [] := rfl

theorem trimSafe_of_isStringOrAbsent {v : JsVal} (h : isStringOrAbsent v = true) :
    trimSafe v = true := by
  cases v <;> simp [isStringOrAbsent] at h <;> simp [trimSafe, truthy]

theorem failsRequired_eq_missingOrShorter {v : JsVal} {n : Nat}
    (h : isStringOrAbsent v = true) (hn : 0 < n) :
    failsRequired v n = missingOrShorter v n := by
  cases v with
  | undefined => rfl
  | str s =>
    cases s with
    | nil => simp [failsRequired, missingOrShorter, truthy, trim_nil, hn]
    | cons c cs => rfl
  | _ => simp [isStringOrAbsent] at h

theorem failsRequired_one_eq_missingOrBlank {v : JsVal} (h : isStringOrAbsent v = true) :
    failsRequired v 1 = missingOrBlank v := by
  rw [failsRequired_eq_missingOrShorter h Nat.one_pos]
  cases v with
  | str s =>
    show decide ((trim s).length < 1) = ((trim s).length == 0)
    cases trim s <;> rfl
  | _ => rfl

/-- C5: for every candidate whose title, description and reportedBy are each a string
or absent, `validateBugData` returns, and its errors hold the title message exactly
when title is missing or shorter than 3 after trimming, the description message exactly
when description is missing or shorter than 10 after trimming, and the reporter message
exactly when reportedBy is missing or empty after trimming, each independently of the
other checks. -/
theorem validateBugData_required_checks (d : JsObject)
    (ht : isStringOrAbsent (getProp d (utf16 "title")) = true)
    (hd : isStringOrAbsent (getProp d (utf16 "description")) = true)
    (hr : isStringOrAbsent (getProp d (utf16 "reportedBy")) = true) :
    ∃ r, validateBugData d = .ok r ∧
      (titleMessage ∈ r.errors ↔ missingOrShorter (getProp d (utf16 "title")) 3 = true) ∧
      (descriptionMessage ∈ r.errors ↔
        missingOrShorter (getProp d (utf16 "description")) 10 = true) ∧
      (reporterMessage ∈ r.errors ↔ missingOrBlank (getProp d (utf16 "reportedBy")) = true) := by
  have hsafe : (trimSafe (getProp d (utf16 "title")) &&
      trimSafe (getProp d (utf16 "description")) &&
      trimSafe (getProp d (utf16 "reportedBy"))) = true := by
    simp [trimSafe_of_isStringOrAbsent ht, trimSafe_of_isStringOrAbsent hd,
      trimSafe_of_isStringOrAbsent hr]
  rw [validateBugData_eq, if_pos hsafe]
  refine ⟨_, rfl, ?_, ?_, ?_⟩
  · rw [← failsRequired_eq_missingOrShorter ht (by decide)]
    exact (mem_errorsFor _ _ _ _ _).1
  · rw [← failsRequired_eq_missingOrShorter hd (by decide)]
    exact (mem_errorsFor _ _ _ _ _).2.1
  · rw [← failsRequired_one_eq_missingOrBlank hr]
    exact (mem_errorsFor _ _ _ _ _).2.2.1

theorem validateBugData_required_checks_witness :
    ∃ r, validateBugData shortBody = .ok r ∧
      (titleMessage ∈ r.errors ↔ missingOrShorter (getProp shortBody (utf16 "title")) 3 = true) ∧
      (descriptionMessage ∈ r.errors ↔
        missingOrShorter (getProp shortBody (utf16 "description")) 10 = true) ∧
      (reporterMessage ∈ r.errors ↔
        missingOrBlank (getProp shortBody (utf16 "reportedBy")) = true) :=
  validateBugData_required_checks shortBody rfl rfl rfl

theorem failsRequired_str_false {s : JsString} {n : Nat} (hn : 0 < n)
    (h : n ≤ (trim s).length) : failsRequired (.str s) n = false := by
  cases s with
  | nil => simp [trim_nil] at h; omega
  | cons c cs => simp [failsRequired, truthy]; omega

theorem trimSafe_str (s : JsString) : trimSafe (.str s) = true := by
  simp [trimSafe]

theorem enumCheck_false {valid : List JsString} {v : JsVal}
    (h : v = .undefined ∨ includes valid v = true) : (truthy v && !includes valid v) = false := by
  rcases h with h | h
  · subst h; rfl
  · simp [h]

/-- C6, as stated, fails: a body whose `status` is present as the empty string, which
is none of the three status values, passes validation with no error; likewise for an
empty `priority`. -/
theorem validateBugData_empty_enum_counterexample :
    hasOwn (bodyWithStatus (.str (utf16 ""))) (utf16 "status") = true ∧
      includes validStatuses (getProp (bodyWithStatus (.str (utf16 ""))) (utf16 "status")) =
        false ∧
      validateBugData (bodyWithStatus (.str (utf16 ""))) = .ok { isValid := true, errors := [] } ∧
      statusMessage ∉ ([] : List String) ∧
      hasOwn (bodyWithPriority (.str (utf16 ""))) (utf16 "priority") = true ∧
      includes validPriorities
        (getProp (bodyWithPriority (.str (utf16 ""))) (utf16 "priority")) = false ∧
      validateBugData (bodyWithPriority (.str (utf16 ""))) =
        .ok { isValid := true, errors := [] } :=
  ⟨rfl, rfl, rfl, List.not_mem_nil _, rfl, rfl, rfl⟩

/-- C6, amended: for every candidate on which `validateBugData` returns, if status is
truthy (present and not the empty string, 0, false or null) and is not one of the three
status values then the errors include the status message, and if priority is truthy and
is not one of the four priority values then the errors include the priority message. -/
theorem validateBugData_enum_checks (d : JsObject) (r : ValidationResult)
    (h : validateBugData d = .ok r) :
    (truthy (getProp d (utf16 "status")) = true →
        includes validStatuses (getProp d (utf16 "status")) = false →
        statusMessage ∈ r.errors) ∧
      (truthy (getProp d (utf16 "priority")) = true →
        includes validPriorities (getProp d (utf16 "priority")) = false →
        priorityMessage ∈ r.errors) := by
  obtain ⟨herr, -⟩ := validateBugData_returns h
  rw [herr]
  constructor
  · intro h1 h2
    exact (mem_errorsFor _ _ _ _ _).2.2.2.1.mpr (by simp [h1, h2])
  · intro h1 h2
    exact (mem_errorsFor _ _ _ _ _).2.2.2.2.mpr (by simp [h1, h2])

theorem validateBugData_enum_checks_witness :
    validateBugData (bodyWithEnums (.str (utf16 "bogus")) (.str (utf16 "super-urgent"))) =
        .ok { isValid := false, errors := [statusMessage, priorityMessage] } ∧
      statusMessage ∈ [statusMessage, priorityMessage] ∧
      priorityMessage ∈ [statusMessage, priorityMessage] :=
  ⟨rfl,
    (validateBugData_enum_checks
      (bodyWithEnums (.str (utf16 "bogus")) (.str (utf16 "super-urgent")))
      { isValid := false, errors := [statusMessage, priorityMessage] } rfl).1 rfl rfl,
    (validateBugData_enum_checks
      (bodyWithEnums (.str (utf16 "bogus")) (.str (utf16 "super-urgent")))
      { isValid := false, errors := [statusMessage, priorityMessage] } rfl).2 rfl rfl⟩

/-- C7: for every candidate whose title is a string of trimmed length at least 3, whose
description is a string of trimmed length at least 10, whose reportedBy is a string that
is non-empty after trimming, and whose status and priority are each absent or a member
of their enum, `validateBugData` returns `isValid = true` and an empty error list. -/
theorem validateBugData_accepts (d : JsObject) (st sd sr : JsString)
    (ht : getProp d (utf16 "title") = .str st) (ht3 : 3 ≤ (trim st).length)
    (hd : getProp d (utf16 "description") = .str sd) (hd10 : 10 ≤ (trim sd).length)
    (hr : getProp d (utf16 "reportedBy") = .str sr) (hr1 : trim sr ≠ [])
    (hs : getProp d (utf16 "status") = .undefined ∨
      includes validStatuses (getProp d (utf16 "status")) = true)
    (hp : getProp d (utf16 "priority") = .undefined ∨
      includes validPriorities (getProp d (utf16 "priority")) = true) :
    validateBugData d = .ok { isValid := true, errors := [] } := by
  have hr1' : 1 ≤ (trim sr).length := List.length_pos.mpr hr1
  rw [validateBugData_eq, ht, hd, hr, enumCheck_false hs, enumCheck_false hp,
    failsRequired_str_false (by decide) ht3, failsRequired_str_false (by decide) hd10,
    failsRequired_str_false (by decide) hr1', trimSafe_str, trimSafe_str, trimSafe_str]
  rfl

theorem validateBugData_accepts_witness :
    validateBugData (bodyWithEnums (.str (utf16 "in-progress")) (.str (utf16 "critical"))) =
        .ok { isValid := true, errors := [] } ∧
      validateBugData validBody = .ok { isValid := true, errors := [] } :=
  ⟨validateBugData_accepts _ (utf16 "Valid Title") (utf16 "Valid description here")
      (utf16 "John") rfl (by decide) rfl (by decide) rfl (by decide) (Or.inr rfl) (Or.inr rfl),
    validateBugData_accepts _ (utf16 "Valid Title") (utf16 "Valid description here")
      (utf16 "John") rfl (by decide) rfl (by decide) rfl (by decide) (Or.inl rfl) (Or.inl rfl)⟩

/-- C8: for every candidate on which `validateBugData` returns, `isValid` is true if and
only if the returned error list is empty. -/
theorem validateBugData_isValid_iff (d : JsObject) (r : ValidationResult)
    (h : validateBugData d = .ok r) : r.isValid = true ↔ r.errors = [] := by
  obtain ⟨-, hv⟩ := validateBugData_returns h
  rw [hv]
  cases r.errors <;> simp

theorem validateBugData_isValid_iff_witness :
    ((false = true) ↔ [titleMessage, descriptionMessage, reporterMessage] = []) ∧
      ((true = true) ↔ ([] : List String) = []) :=
  ⟨validateBugData_isValid_iff shortBody
      { isValid := false, errors := [titleMessage, descriptionMessage, reporterMessage] } rfl,
    validateBugData_isValid_iff validBody { isValid := true, errors := [] } rfl⟩

/-- C9: for every candidate on which `validateBugData` returns, the errors are a
subsequence, without repeats, of the five messages in rule order; and when the
candidate fails all three required-field rules (each field falsy or a string too short
after trimming) there are at least 3 errors, the first three being the title, the
description and the reporter message in that order. -/
theorem validateBugData_errors_in_rule_order (d : JsObject) (r : ValidationResult)
    (h : validateBugData d = .ok r) :
    List.Sublist r.errors allMessages ∧ r.errors.Nodup ∧
      (failsRequired (getProp d (utf16 "title")) 3 = true →
        failsRequired (getProp d (utf16 "description")) 10 = true →
        failsRequired (getProp d (utf16 "reportedBy")) 1 = true →
        3 ≤ r.errors.length ∧
          r.errors.take 3 = [titleMessage, descriptionMessage, reporterMessage]) := by
  obtain ⟨herr, -⟩ := validateBugData_returns h
  rw [herr]
  refine ⟨errorsFor_sublist _ _ _ _ _, (errorsFor_sublist _ _ _ _ _).nodup allMessages_nodup, ?_⟩
  intro h1 h2 h3
  rw [h1, h2, h3]
  have htake := errorsFor_required
    (truthy (getProp d (utf16 "status")) && !includes validStatuses (getProp d (utf16 "status")))
    (truthy (getProp d (utf16 "priority")) &&
      !includes validPriorities (getProp d (utf16 "priority")))
  refine ⟨?_, htake⟩
  have hlen := congrArg List.length htake
  rw [List.length_take] at hlen
  simp at hlen
  exact hlen

theorem validateBugData_errors_in_rule_order_witness :
    validateBugData shortBody =
        .ok { isValid := false, errors := [titleMessage, descriptionMessage, reporterMessage] } ∧
      List.Sublist [titleMessage, descriptionMessage, reporterMessage] allMessages ∧
      [titleMessage, descriptionMessage, reporterMessage].Nodup ∧
      3 ≤ [titleMessage, descriptionMessage, reporterMessage].length ∧
      [titleMessage, descriptionMessage, reporterMessage].take 3 =
        [titleMessage, descriptionMessage, reporterMessage] :=
  have h := validateBugData_errors_in_rule_order shortBody
    { isValid := false, errors := [titleMessage, descriptionMessage, reporterMessage] } rfl
  ⟨rfl, h.1, h.2.1, h.2.2 rfl rfl rfl⟩

/-- C10 fails on the code: a body whose title is a non-zero number, `true`, an array or
an object makes `validateBugData` raise a `TypeError` (the value is truthy and has no
`trim` method) instead of returning a result. -/
theorem validateBugData_throws_on_non_string_title :
    validateBugData (bodyWithTitle (.num 123)) = .error .typeError ∧
      validateBugData (bodyWithTitle (.bool true)) = .error .typeError ∧
      validateBugData (bodyWithTitle (.arr [.str (utf16 "Valid Title")])) = .error .typeError ∧
      validateBugData (bodyWithTitle (.obj [])) = .error .typeError :=
  ⟨rfl, rfl, rfl, rfl⟩

/-! ## The Create handler -/

theorem errorsFor_eq_nil {a b c e f : Bool} (h : errorsFor a b c e f = []) :
    a = false ∧ b = false ∧ c = false ∧ e = false ∧ f = false := by
  cases a <;> cases b <;> cases c <;> cases e <;> cases f <;> simp [errorsFor] at h ⊢

theorem str_of_not_failsRequired {v : JsVal} {n : Nat} (hs : trimSafe v = true)
    (h : failsRequired v n = false) : ∃ s, v = .str s ∧ n ≤ (trim s).length := by
  cases v with
  | str s =>
    refine ⟨s, rfl, ?_⟩
    simp [failsRequired] at h
    omega
  | bool b => cases b <;> simp [failsRequired, trimSafe, truthy] at h hs
  | num k => simp [failsRequired, trimSafe, truthy] at h hs; exact absurd hs h
  | _ => simp [failsRequired, trimSafe, truthy] at h hs

theorem validateBugData_trimSafe {d : JsObject} {r : ValidationResult}
    (h : validateBugData d = .ok r) :
    trimSafe (getProp d (utf16 "title")) = true ∧
      trimSafe (getProp d (utf16 "description")) = true ∧
      trimSafe (getProp d (utf16 "reportedBy")) = true := by
  rw [validateBugData_eq] at h
  split at h
  · rename_i hc
    simpa [Bool.and_eq_true, and_assoc] using hc
  · cases h

/-- What the validator has checked when it accepts a body. -/
theorem validateBugData_accepted {d : JsObject} {r : ValidationResult}
    (h : validateBugData d = .ok r) (hv : r.isValid = true) :
    (∃ s, getProp d (utf16 "title") = .str s ∧ 3 ≤ (trim s).length) ∧
      (∃ s, getProp d (utf16 "description") = .str s ∧ 10 ≤ (trim s).length) ∧
      (∃ s, getProp d (utf16 "reportedBy") = .str s ∧ 1 ≤ (trim s).length) ∧
      (truthy (getProp d (utf16 "status")) = true →
        includes validStatuses (getProp d (utf16 "status")) = true) ∧
      (truthy (getProp d (utf16 "priority")) = true →
        includes validPriorities (getProp d (utf16 "priority")) = true) := by
  obtain ⟨herr, hval⟩ := validateBugData_returns h
  rw [hv] at hval
  have hnil : r.errors = [] := by
    cases hr : r.errors with
    | nil => rfl
    | cons x xs => rw [hr] at hval; simp at hval
  rw [hnil] at herr
  obtain ⟨h1, h2, h3, h4, h5⟩ := errorsFor_eq_nil herr.symm
  obtain ⟨s1, s2, s3⟩ := validateBugData_trimSafe h
  refine ⟨str_of_not_failsRequired s1 h1, str_of_not_failsRequired s2 h2,
    str_of_not_failsRequired s3 h3, ?_, ?_⟩
  · intro ht
    rw [ht] at h4
    simpa using h4
  · intro ht
    rw [ht] at h5
    simpa using h5

/-- C11: for every request body on which `validateBugData` returns `isValid = false`,
the Create handler answers 400 with `{success: false, error: 'Validation failed',
details: errors}`, where `errors` is the validator's list, makes no store call at all,
and leaves the store as it was. -/
theorem createBug_invalid {σ ε : Type} (store : Store σ ε) (req : Request) (s : σ)
    (r : ValidationResult) (h : validateBugData req.body = .ok r) (hv : r.isValid = false) :
    createBug store req s =
        { state := s
          events :=
            [.respond 400
              [(utf16 "success", .bool false),
               (utf16 "error", .str (utf16 "Validation failed")),
               (utf16 "details", errorDetails r.errors)]] } ∧
      ∀ c, Event.call c ∉ (createBug store req s).events := by
  have hrun : createBug store req s =
      { state := s
        events :=
          [.respond 400
            [(utf16 "success", .bool false),
             (utf16 "error", .str (utf16 "Validation failed")),
             (utf16 "details", errorDetails r.errors)]] } := by
    simp [createBug, h, hv]
  refine ⟨hrun, ?_⟩
  intro c hc
  rw [hrun] at hc
  simp at hc

theorem createBug_invalid_witness :
    createBug mapStore (request [] [] shortBody) emptyDb =
        { state := emptyDb
          events :=
            [.respond 400
              [(utf16 "success", .bool false),
               (utf16 "error", .str (utf16 "Validation failed")),
               (utf16 "details",
                 errorDetails [titleMessage, descriptionMessage, reporterMessage])]] } ∧
      ∀ c, Event.call c ∉ (createBug mapStore (request [] [] shortBody) emptyDb).events :=
  createBug_invalid mapStore (request [] [] shortBody) emptyDb
    { isValid := false, errors := [titleMessage, descriptionMessage, reporterMessage] } rfl rfl

theorem replaceAngles_no_angle (t : JsString) :
    '<'.toNat ∉ replaceAngles t ∧ '>'.toNat ∉ replaceAngles t := by
  constructor
  · intro h
    have := not_matchesAngle_of_mem_replaceAngles h
    simp [matchesAngle] at this
  · intro h
    have := not_matchesAngle_of_mem_replaceAngles h
    simp [matchesAngle] at this

theorem sanitized_field {v : JsVal} {n : Nat} (h : ∃ s, v = .str s ∧ n ≤ (trim s).length) :
    ∃ t, sanitizeInput v = .str t ∧ '<'.toNat ∉ t ∧ '>'.toNat ∉ t := by
  obtain ⟨s, rfl, -⟩ := h
  exact ⟨replaceAngles (trim s), rfl, replaceAngles_no_angle _⟩

/-- C12, as stated, fails: a body that gives `status: ''` (and one that gives
`priority: ''`) is accepted, and the record passed to the store has status `'open'`
(priority `'medium'`), not the body's value. -/
theorem createBug_empty_enum_counterexample :
    hasOwn (bodyWithStatus (.str (utf16 ""))) (utf16 "status") = true ∧
      getProp (bodyWithStatus (.str (utf16 ""))) (utf16 "status") = .str (utf16 "") ∧
      (createBug mapStore (request [] [] (bodyWithStatus (.str (utf16 "")))) emptyDb).events.head? =
        some (.call (.create (sanitizedData (bodyWithStatus (.str (utf16 "")))))) ∧
      getProp (sanitizedData (bodyWithStatus (.str (utf16 "")))) (utf16 "status") =
        .str (utf16 "open") ∧
      hasOwn (bodyWithPriority (.str (utf16 ""))) (utf16 "priority") = true ∧
      (createBug mapStore (request [] [] (bodyWithPriority (.str (utf16 "")))) emptyDb).events.head? =
        some (.call (.create (sanitizedData (bodyWithPriority (.str (utf16 "")))))) ∧
      getProp (sanitizedData (bodyWithPriority (.str (utf16 "")))) (utf16 "priority") =
        .str (utf16 "medium") :=
  ⟨rfl, rfl, rfl, rfl, rfl, rfl, rfl⟩

/-- C12, amended: for every request body that `validateBugData` accepts and a store
whose create succeeds, the Create handler passes to the store a record whose title,
description and reportedBy are `sanitizeInput` of the body's (strings without `<` or
`>`), whose status is the body's status when that is truthy and `'open'` otherwise, and
whose priority is the body's priority when that is truthy and `'medium'` otherwise; and
it answers 201 with `{success: true, data: bug}`, `bug` being what the store returned. -/
theorem createBug_valid {σ ε : Type} (store : Store σ ε) (req : Request) (s s1 : σ)
    (r : ValidationResult) (bug : JsVal)
    (h : validateBugData req.body = .ok r) (hv : r.isValid = true)
    (hc : store.create (sanitizedData req.body) s = (.ok bug, s1)) :
    createBug store req s =
        { state := s1
          events :=
            [.call (.create (sanitizedData req.body)),
             .respond 201 [(utf16 "success", .bool true), (utf16 "data", bug)]] } ∧
      (getProp (sanitizedData req.body) (utf16 "title") =
          sanitizeInput (getProp req.body (utf16 "title")) ∧
        ∃ t, sanitizeInput (getProp req.body (utf16 "title")) = .str t ∧
          '<'.toNat ∉ t ∧ '>'.toNat ∉ t) ∧
      (getProp (sanitizedData req.body) (utf16 "description") =
          sanitizeInput (getProp req.body (utf16 "description")) ∧
        ∃ t, sanitizeInput (getProp req.body (utf16 "description")) = .str t ∧
          '<'.toNat ∉ t ∧ '>'.toNat ∉ t) ∧
      (getProp (sanitizedData req.body) (utf16 "reportedBy") =
          sanitizeInput (getProp req.body (utf16 "reportedBy")) ∧
        ∃ t, sanitizeInput (getProp req.body (utf16 "reportedBy")) = .str t ∧
          '<'.toNat ∉ t ∧ '>'.toNat ∉ t) ∧
      getProp (sanitizedData req.body) (utf16 "status") =
        (if truthy (getProp req.body (utf16 "status")) then getProp req.body (utf16 "status")
         else .str (utf16 "open")) ∧
      getProp (sanitizedData req.body) (utf16 "priority") =
        (if truthy (getProp req.body (utf16 "priority")) then
           getProp req.body (utf16 "priority")
         else .str (utf16 "medium")) := by
  obtain ⟨ht, hd, hr, -, -⟩ := validateBugData_accepted h hv
  refine ⟨?_, ⟨rfl, sanitized_field ht⟩, ⟨rfl, sanitized_field hd⟩, ⟨rfl, sanitized_field hr⟩,
    rfl, rfl⟩
  simp [createBug, h, hv, hc]

theorem createBug_valid_witness :
    createBug mapStore (request [] [] (bodyWithPriority (.str (utf16 "high")))) emptyDb =
        { state := { docs := [(objectId 0, highDoc)], clock := 1 }
          events :=
            [.call (.create (sanitizedData (bodyWithPriority (.str (utf16 "high"))))),
             .respond 201 [(utf16 "success", .bool true), (utf16 "data", .obj highDoc)]] } ∧
      getProp highDoc (utf16 "status") = .str (utf16 "open") ∧
      getProp highDoc (utf16 "priority") = .str (utf16 "high") :=
  ⟨(createBug_valid mapStore (request [] [] (bodyWithPriority (.str (utf16 "high")))) emptyDb
      { docs := [(objectId 0, highDoc)], clock := 1 } { isValid := true, errors := [] }
      (.obj highDoc) rfl rfl rfl).1, rfl, rfl⟩

/-- C13 fails on the code: for the accepted body whose `assignedTo` is two spaces (or is
`'<>'`), `sanitizeInput(assignedTo)` is the empty string, and the record the Create
handler passes to the store has `assignedTo = ''`, not `'Unassigned'`. -/
theorem createBug_blank_assignee :
    sanitizeInput (.str (utf16 "  ")) = .str (utf16 "") ∧
      (createBug mapStore (request [] [] (bodyWithAssignee (.str (utf16 "  ")))) emptyDb).events.head? =
        some (.call (.create (sanitizedData (bodyWithAssignee (.str (utf16 "  ")))))) ∧
      getProp (sanitizedData (bodyWithAssignee (.str (utf16 "  ")))) (utf16 "assignedTo") =
        .str (utf16 "") ∧
      sanitizeInput (.str (utf16 "<>")) = .str (utf16 "") ∧
      (createBug mapStore (request [] [] (bodyWithAssignee (.str (utf16 "<>")))) emptyDb).events.head? =
        some (.call (.create (sanitizedData (bodyWithAssignee (.str (utf16 "<>")))))) ∧
      getProp (sanitizedData (bodyWithAssignee (.str (utf16 "<>")))) (utf16 "assignedTo") =
        .str (utf16 "") :=
  ⟨rfl, rfl, rfl, rfl, rfl, rfl⟩

/-- C14 fails on the code: the body `{title: '<b>', description: '<<<<<>>>>>',
reportedBy: '<>'}` is accepted, because the raw fields have trimmed lengths 3, 10 and
2, and the record the Create handler passes to the store has title `'b'` (trimmed
length 1), an empty description and an empty reportedBy. -/
theorem createBug_angle_body :
    validateBugData angleBody = .ok { isValid := true, errors := [] } ∧
      (createBug mapStore (request [] [] angleBody) emptyDb).events.head? =
        some (.call (.create (sanitizedData angleBody))) ∧
      getProp (sanitizedData angleBody) (utf16 "title") = .str (utf16 "b") ∧
      (trim (utf16 "b")).length = 1 ∧
      getProp (sanitizedData angleBody) (utf16 "description") = .str (utf16 "") ∧
      getProp (sanitizedData angleBody) (utf16 "reportedBy") = .str (utf16 "") ∧
      (trim (utf16 "")).length = 0 :=
  ⟨rfl, rfl, rfl, rfl, rfl, rfl, rfl⟩

/-! ## The Update handler -/

theorem hasOwn_iff_mem_objectKeys (o : JsObject) (k : JsString) :
    hasOwn o k = true ↔ k ∈ objectKeys o := by
  induction o with
  | nil => simp [hasOwn, objectKeys]
  | cons kv rest ih =>
    by_cases h : kv.1 = k
    · simp [hasOwn, objectKeys, List.find?_cons, h]
    · have h' : k ≠ kv.1 := fun e => h e.symm
      simp only [hasOwn, objectKeys] at ih
      simp [hasOwn, objectKeys, List.find?_cons, h, h', ih]

theorem mem_objectKeys_setProp (o : JsObject) (key k : JsString) (v : JsVal) :
    k ∈ objectKeys (setProp o key v) ↔ k = key ∨ k ∈ objectKeys o := by
  unfold setProp
  split
  · rename_i h
    have hk : key ∈ objectKeys o := (hasOwn_iff_mem_objectKeys o key).mp h
    have : objectKeys (o.map fun kv => if kv.1 == key then (kv.1, v) else kv) = objectKeys o := by
      simp only [objectKeys, List.map_map]
      apply List.map_congr_left
      intro kv _
      by_cases e : kv.1 = key <;> simp [e]
    rw [this]
    constructor
    · exact Or.inr
    · rintro (rfl | h')
      · exact hk
      · exact h'
  · simp [objectKeys, or_comm]

theorem getProp_cons (kv : JsString × JsVal) (rest : JsObject) (k : JsString) :
    getProp (kv :: rest) k = if kv.1 = k then kv.2 else getProp rest k := by
  by_cases h : kv.1 = k <;> simp [getProp, List.find?_cons, h]

theorem hasOwn_cons (kv : JsString × JsVal) (rest : JsObject) (k : JsString) :
    hasOwn (kv :: rest) k = (decide (kv.1 = k) || hasOwn rest k) := by
  by_cases h : kv.1 = k <;> simp [hasOwn, List.find?_cons, h]

theorem getProp_of_not_hasOwn {o : JsObject} {k : JsString} (h : hasOwn o k = false) :
    getProp o k = .undefined := by
  induction o with
  | nil => rfl
  | cons kv rest ih =>
    rw [hasOwn_cons] at h
    simp only [Bool.or_eq_false_iff, decide_eq_false_iff_not] at h
    rw [getProp_cons, if_neg h.1, ih h.2]

theorem getProp_map_replace (o : JsObject) (key k : JsString) (v : JsVal) :
    getProp (o.map fun kv => if kv.1 == key then (kv.1, v) else kv) k =
      if k = key ∧ hasOwn o key = true then v else getProp o k := by
  induction o with
  | nil => simp [getProp, hasOwn]
  | cons kv rest ih =>
    rw [List.map_cons, getProp_cons, getProp_cons, hasOwn_cons, ih]
    by_cases h1 : kv.1 = k <;> by_cases h2 : kv.1 = key <;> by_cases h3 : k = key <;>
      simp_all

theorem getProp_append_single (o : JsObject) (key k : JsString) (v : JsVal) :
    getProp (o ++ [(key, v)]) k =
      if hasOwn o k = true then getProp o k else if k = key then v else .undefined := by
  induction o with
  | nil =>
    by_cases h : key = k
    · simp [getProp, hasOwn, h]
    · have h' : ¬ k = key := fun e => h e.symm
      simp [getProp, hasOwn, h, h']
  | cons kv rest ih =>
    rw [List.cons_append, getProp_cons, getProp_cons, hasOwn_cons, ih]
    by_cases h1 : kv.1 = k <;> simp [h1]

theorem getProp_setProp (o : JsObject) (key k : JsString) (v : JsVal) :
    getProp (setProp o key v) k = if k = key then v else getProp o k := by
  unfold setProp
  split
  · rename_i h
    rw [getProp_map_replace]
    by_cases hk : k = key <;> simp [hk, h]
  · rename_i h
    have h' : hasOwn o key = false := by simpa using h
    rw [getProp_append_single]
    by_cases hk : k = key
    · subst hk; simp [h']
    · by_cases ho : hasOwn o k = true
      · simp [hk, ho]
      · have ho' : hasOwn o k = false := by simpa using ho
        simp [hk, ho', getProp_of_not_hasOwn ho']

theorem includes_str (xs : List JsString) (k : JsString) :
    includes xs (.str k) = true ↔ k ∈ xs := by
  simp only [includes, sameValueZero, List.any_eq_true, beq_iff_eq]
  constructor
  · rintro ⟨x, hx, rfl⟩
    exact hx
  · intro h
    exact ⟨k, h, rfl⟩

theorem mem_objectKeys_foldl (body : JsObject) (g : JsVal → JsVal) (ks : List JsString)
    (u : JsObject) (k : JsString) :
    k ∈ objectKeys
        (ks.foldl
          (fun updates key =>
            if includes allowedUpdates (.str key) then setProp updates key (g (getProp body key))
            else updates)
          u) ↔
      (k ∈ ks ∧ k ∈ allowedUpdates) ∨ k ∈ objectKeys u := by
  induction ks generalizing u with
  | nil => simp
  | cons key rest ih =>
    rw [List.foldl_cons, ih]
    by_cases ha : includes allowedUpdates (.str key) = true
    · have hmem : key ∈ allowedUpdates := (includes_str _ _).mp ha
      rw [if_pos ha, mem_objectKeys_setProp]
      constructor
      · rintro (⟨h1, h2⟩ | rfl | h)
        · exact Or.inl ⟨List.mem_cons_of_mem _ h1, h2⟩
        · exact Or.inl ⟨List.mem_cons_self _ _, hmem⟩
        · exact Or.inr h
      · rintro (⟨h1, h2⟩ | h)
        · rcases List.mem_cons.mp h1 with rfl | h1
          · exact Or.inr (Or.inl rfl)
          · exact Or.inl ⟨h1, h2⟩
        · exact Or.inr (Or.inr h)
    · have hmem : key ∉ allowedUpdates := fun h => ha ((includes_str _ _).mpr h)
      rw [if_neg ha]
      constructor
      · rintro (⟨h1, h2⟩ | h)
        · exact Or.inl ⟨List.mem_cons_of_mem _ h1, h2⟩
        · exact Or.inr h
      · rintro (⟨h1, h2⟩ | h)
        · rcases List.mem_cons.mp h1 with rfl | h1
          · exact absurd h2 hmem
          · exact Or.inl ⟨h1, h2⟩
        · exact Or.inr h

theorem getProp_foldl (body : JsObject) (g : JsVal → JsVal) (ks : List JsString)
    (u : JsObject) (k : JsString) :
    getProp
        (ks.foldl
          (fun updates key =>
            if includes allowedUpdates (.str key) then setProp updates key (g (getProp body key))
            else updates)
          u) k =
      if k ∈ ks ∧ k ∈ allowedUpdates then g (getProp body k) else getProp u k := by
  induction ks generalizing u with
  | nil => simp
  | cons key rest ih =>
    rw [List.foldl_cons, ih]
    by_cases hin : k ∈ rest ∧ k ∈ allowedUpdates
    · rw [if_pos hin, if_pos ⟨List.mem_cons_of_mem _ hin.1, hin.2⟩]
    · rw [if_neg hin]
      by_cases ha : includes allowedUpdates (.str key) = true
      · have hmem : key ∈ allowedUpdates := (includes_str _ _).mp ha
        rw [if_pos ha, getProp_setProp]
        by_cases hk : k = key
        · subst hk
          rw [if_pos rfl, if_pos ⟨List.mem_cons_self _ _, hmem⟩]
        · rw [if_neg hk, if_neg]
          rintro ⟨h1, h2⟩
          rcases List.mem_cons.mp h1 with h1 | h1
          · exact hk h1
          · exact hin ⟨h1, h2⟩
      · have hmem : key ∉ allowedUpdates := fun h => ha ((includes_str _ _).mpr h)
        rw [if_neg ha, if_neg]
        rintro ⟨h1, h2⟩
        rcases List.mem_cons.mp h1 with h1 | h1
        · exact hmem (h1 ▸ h2)
        · exact hin ⟨h1, h2⟩

theorem mem_objectKeys_buildUpdates (body : JsObject) (k : JsString) :
    k ∈ objectKeys (buildUpdates body) ↔ k ∈ objectKeys body ∧ k ∈ allowedUpdates := by
  unfold buildUpdates
  rw [mem_objectKeys_foldl body
    (fun v => if typeofString v then sanitizeInput v else v)]
  simp [objectKeys]

theorem getProp_buildUpdates (body : JsObject) (k : JsString)
    (h1 : k ∈ objectKeys body) (h2 : k ∈ allowedUpdates) :
    getProp (buildUpdates body) k =
      if typeofString (getProp body k) then sanitizeInput (getProp body k)
      else getProp body k := by
  unfold buildUpdates
  rw [getProp_foldl body (fun v => if typeofString v then sanitizeInput v else v),
    if_pos ⟨h1, h2⟩]

/-- C15: for every request body sent to Update for an existing id, the store calls of
the run are the lookup and one `findByIdAndUpdate`, so that every update set passed to
the store is `updates`; its keys are exactly the body's keys that are in the allow-list,
and under each such key the value is `sanitizeInput` of the body's value when that is a
string and the body's value itself when it is not. -/
theorem updateBug_update_set {σ ε : Type} (store : Store σ ε) (req : Request) (s s1 : σ)
    (bug : JsVal) (hf : store.findById req.id s = (.ok bug, s1)) (hb : truthy bug = true) :
    storeCalls (updateBug store req s).events =
        [.findById req.id,
         .findByIdAndUpdate req.id (buildUpdates req.body) updateOptions] ∧
      (∀ id updates options,
        Event.call (.findByIdAndUpdate id updates options) ∈ (updateBug store req s).events →
        updates = buildUpdates req.body) ∧
      Event.call (.findByIdAndUpdate req.id (buildUpdates req.body) updateOptions) ∈
        (updateBug store req s).events ∧
      (∀ key, key ∈ objectKeys (buildUpdates req.body) ↔
        key ∈ objectKeys req.body ∧ key ∈ allowedUpdates) ∧
      ∀ key, key ∈ objectKeys req.body → key ∈ allowedUpdates →
        (∀ x, getProp req.body key = .str x →
          getProp (buildUpdates req.body) key = sanitizeInput (.str x)) ∧
        ((∀ x, getProp req.body key ≠ .str x) →
          getProp (buildUpdates req.body) key = getProp req.body key) := by
  refine ⟨?_, ?_, ?_, mem_objectKeys_buildUpdates req.body, ?_⟩
  · unfold updateBug
    rw [hf]
    simp only [hb, Bool.not_true, Bool.false_eq_true, if_false]
    split <;> rfl
  · intro id updates options hmem
    unfold updateBug at hmem
    rw [hf] at hmem
    simp only [hb, Bool.not_true, Bool.false_eq_true, if_false] at hmem
    split at hmem <;> simp at hmem <;> exact hmem.2.1
  · unfold updateBug
    rw [hf]
    simp only [hb, Bool.not_true, Bool.false_eq_true, if_false]
    split <;> simp
  · intro key h1 h2
    rw [getProp_buildUpdates req.body key h1 h2]
    constructor
    · intro x hx
      rw [hx]
      rfl
    · intro hx
      cases hv : getProp req.body key with
      | str x => exact absurd hv (hx x)
      | _ => rfl

theorem updateBug_update_set_witness :
    storeCalls (updateBug mapStore (request (objectId 0) [] updateBody) twoBugsDb).events =
        [.findById (objectId 0),
         .findByIdAndUpdate (objectId 0) (buildUpdates updateBody) updateOptions] ∧
      Event.call (.findByIdAndUpdate (objectId 0) (buildUpdates updateBody) updateOptions) ∈
        (updateBug mapStore (request (objectId 0) [] updateBody) twoBugsDb).events ∧
      (utf16 "status" ∈ objectKeys (buildUpdates updateBody) ∧
        utf16 "priority" ∈ objectKeys (buildUpdates updateBody) ∧
        utf16 "reportedBy" ∉ objectKeys (buildUpdates updateBody)) ∧
      getProp (buildUpdates updateBody) (utf16 "assignedTo") =
        sanitizeInput (.str (utf16 " <Developer> ")) ∧
      getProp (buildUpdates updateBody) (utf16 "priority") = .num 3 := by
  have h := updateBug_update_set mapStore (request (objectId 0) [] updateBody) twoBugsDb
    twoBugsDb _ rfl rfl
  refine ⟨h.1, h.2.2.1,
    ⟨(h.2.2.2.1 _).mpr ⟨by decide, by decide⟩, (h.2.2.2.1 _).mpr ⟨by decide, by decide⟩, ?_⟩,
    (h.2.2.2.2 (utf16 "assignedTo") (by decide) (by decide)).1 _ rfl,
    (h.2.2.2.2 (utf16 "priority") (by decide) (by decide)).2 ?_⟩
  · intro hk
    exact absurd ((h.2.2.2.1 _).mp hk).2 (by decide)
  · intro x hx
    exact JsVal.noConfusion hx

/-! ## Lookups that find nothing, and Delete -/

/-- C17: for every id for which the store's lookup finds no record (it resolves with
`null`, or any falsy value), each of the Get-one, Update and Delete handlers answers
404 with `{success: false, error: 'Bug not found'}`; the lookup is the only store call
the handler makes, so the store is left as the lookup left it. -/
theorem handlers_not_found {σ ε : Type} (store : Store σ ε) (req : Request) (s s1 : σ)
    (bug : JsVal) (hf : store.findById req.id s = (.ok bug, s1)) (hb : truthy bug = false) :
    notFoundBody =
        [(utf16 "success", .bool false), (utf16 "error", .str (utf16 "Bug not found"))] ∧
      getBug store req s =
        { state := s1, events := [.call (.findById req.id), .respond 404 notFoundBody] } ∧
      updateBug store req s =
        { state := s1, events := [.call (.findById req.id), .respond 404 notFoundBody] } ∧
      deleteBug store req s =
        { state := s1, events := [.call (.findById req.id), .respond 404 notFoundBody] } := by
  refine ⟨rfl, ?_, ?_, ?_⟩
  · simp [getBug, hf, hb]
  · simp [updateBug, hf, hb]
  · simp [deleteBug, hf, hb]

theorem handlers_not_found_witness :
    getBug mapStore (request (objectId 7) [] []) twoBugsDb =
        { state := twoBugsDb
          events := [.call (.findById (objectId 7)), .respond 404 notFoundBody] } ∧
      updateBug mapStore (request (objectId 7) [] bogusStatusBody) twoBugsDb =
        { state := twoBugsDb
          events := [.call (.findById (objectId 7)), .respond 404 notFoundBody] } ∧
      deleteBug mapStore (request (objectId 7) [] []) twoBugsDb =
        { state := twoBugsDb
          events := [.call (.findById (objectId 7)), .respond 404 notFoundBody] } :=
  ⟨(handlers_not_found mapStore (request (objectId 7) [] []) twoBugsDb twoBugsDb .null
      rfl rfl).2.1,
    (handlers_not_found mapStore (request (objectId 7) [] bogusStatusBody) twoBugsDb twoBugsDb
      .null rfl rfl).2.2.1,
    (handlers_not_found mapStore (request (objectId 7) [] []) twoBugsDb twoBugsDb .null
      rfl rfl).2.2.2⟩

theorem lookup_filter_self (docs : List (JsString × JsObject)) (id : JsString) :
    (docs.filter fun d => d.1 != id).lookup id = none := by
  induction docs with
  | nil => rfl
  | cons d rest ih =>
    obtain ⟨k, v⟩ := d
    by_cases h : k = id
    · simp [List.filter_cons, h, ih]
    · have h' : (id == k) = false := by simpa using fun e => h e.symm
      simp [List.filter_cons, h, List.lookup_cons, h', ih]

theorem lookup_filter_ne (docs : List (JsString × JsObject)) {id other : JsString}
    (hne : other ≠ id) :
    (docs.filter fun d => d.1 != id).lookup other = docs.lookup other := by
  induction docs with
  | nil => rfl
  | cons d rest ih =>
    obtain ⟨k, v⟩ := d
    by_cases h : k = id
    · have h' : (other == k) = false := by simpa [h] using hne
      simp [List.filter_cons, h, List.lookup_cons, ih]
      simp [← h, h']
    · by_cases h2 : other = k
      · simp [List.filter_cons, h, List.lookup_cons, h2]
      · have h' : (other == k) = false := by simpa using h2
        simp [List.filter_cons, h, List.lookup_cons, h', ih]

/-- C18: with the store a finite map from id to record, for every store state and every
id present in it the Delete handler answers 200 with `{success: true, message: 'Bug
deleted successfully'}`, the record of that id is gone afterwards while every other id
maps to what it mapped to before, and a following Get-one for the same id answers
404. -/
theorem deleteBug_removes (db : Db) (req : Request) (doc : JsObject)
    (h : db.docs.lookup req.id = some doc) :
    (deleteBug mapStore req db).events =
        [.call (.findById req.id), .call (.findByIdAndDelete req.id),
         .respond 200
           [(utf16 "success", .bool true),
            (utf16 "message", .str (utf16 "Bug deleted successfully"))]] ∧
      (deleteBug mapStore req db).state.docs.lookup req.id = none ∧
      (∀ other, other ≠ req.id →
        (deleteBug mapStore req db).state.docs.lookup other = db.docs.lookup other) ∧
      ∀ again : Request, again.id = req.id →
        (getBug mapStore again (deleteBug mapStore req db).state).events =
          [.call (.findById req.id), .respond 404 notFoundBody] := by
  have hrun : deleteBug mapStore req db =
      { state := { docs := db.docs.filter fun d => d.1 != req.id, clock := db.clock }
        events :=
          [.call (.findById req.id), .call (.findByIdAndDelete req.id),
           .respond 200
             [(utf16 "success", .bool true),
              (utf16 "message", .str (utf16 "Bug deleted successfully"))]] } := by
    simp [deleteBug, mapStore, h, truthy]
  rw [hrun]
  refine ⟨rfl, lookup_filter_self _ _, fun other hne => lookup_filter_ne _ hne, ?_⟩
  intro again hid
  simp [getBug, mapStore, hid, lookup_filter_self, truthy]

theorem deleteBug_removes_witness :
    (deleteBug mapStore (request (objectId 1) [] []) twoBugsDb).events =
        [.call (.findById (objectId 1)), .call (.findByIdAndDelete (objectId 1)),
         .respond 200
           [(utf16 "success", .bool true),
            (utf16 "message", .str (utf16 "Bug deleted successfully"))]] ∧
      (deleteBug mapStore (request (objectId 1) [] []) twoBugsDb).state.docs.lookup
        (objectId 1) = none ∧
      (getBug mapStore (request (objectId 1) [] [])
          (deleteBug mapStore (request (objectId 1) [] []) twoBugsDb).state).events =
        [.call (.findById (objectId 1)), .respond 404 notFoundBody] :=
  have h := deleteBug_removes twoBugsDb (request (objectId 1) [] []) _ rfl
  ⟨h.1, h.2.1, h.2.2.2 (request (objectId 1) [] []) rfl⟩

/-! ## Update and the enum constraints -/

/-- C16, as stated, fails: the body `{status: ' open '}` sets status to a value that is
none of the three status values, yet Update answers 200 and the stored record, whose
status was `'resolved'`, now has status `'open'`: the handler sanitizes the value before
the store validates it. -/
theorem updateBug_padded_status_counterexample :
    includes validStatuses (getProp paddedStatusBody (utf16 "status")) = false ∧
      (twoBugsDb.docs.lookup (objectId 1)).map (fun d => getProp d (utf16 "status")) =
        some (.str (utf16 "resolved")) ∧
      responseStatuses
          (updateBug mapStore (request (objectId 1) [] paddedStatusBody) twoBugsDb).events =
        [200] ∧
      ((updateBug mapStore (request (objectId 1) [] paddedStatusBody)
          twoBugsDb).state.docs.lookup (objectId 1)).map (fun d => getProp d (utf16 "status")) =
        some (.str (utf16 "open")) :=
  ⟨rfl, rfl, rfl, rfl⟩

/-- C16, amended: for every Update request on an existing id whose update set (the
allow-listed fields of the body, strings sanitized) holds a status that is none of the
three status values or a priority that is none of the four priority values, the store
rejects the write with a validation failure; the handler sends no response and passes
the failure to `next`, the error path answers it with 400, and the store is unchanged. -/
theorem updateBug_rejects_invalid_enum (db : Db) (req : Request) (doc : JsObject)
    (h : db.docs.lookup req.id = some doc)
    (hrej : enumRejected (buildUpdates req.body) = true) :
    updateBug mapStore req db =
        { state := db
          events :=
            [.call (.findById req.id),
             .call (.findByIdAndUpdate req.id (buildUpdates req.body) updateOptions),
             .next (.store .validationError)] } ∧
      responseStatuses (updateBug mapStore req db).events = [] ∧
      errorStatus (.store .validationError) = 400 := by
  have hopt : truthy (getProp updateOptions (utf16 "runValidators")) = true := rfl
  have hrun : updateBug mapStore req db =
      { state := db
        events :=
          [.call (.findById req.id),
           .call (.findByIdAndUpdate req.id (buildUpdates req.body) updateOptions),
           .next (.store .validationError)] } := by
    have hdoc : truthy (.obj doc) = true := rfl
    simp [updateBug, mapStore, h, hdoc, hrej, hopt]
  rw [hrun]
  exact ⟨rfl, rfl, rfl⟩

theorem updateBug_rejects_invalid_enum_witness :
    updateBug mapStore (request (objectId 1) [] bogusStatusBody) twoBugsDb =
        { state := twoBugsDb
          events :=
            [.call (.findById (objectId 1)),
             .call (.findByIdAndUpdate (objectId 1) (buildUpdates bogusStatusBody) updateOptions),
             .next (.store .validationError)] } ∧
      responseStatuses
          (updateBug mapStore (request (objectId 1) [] bogusStatusBody) twoBugsDb).events = [] ∧
      errorStatus (.store .validationError) = 400 :=
  updateBug_rejects_invalid_enum twoBugsDb (request (objectId 1) [] bogusStatusBody) _ rfl rfl

/-! ## The List handler -/

theorem listFilter_eq (query : JsObject) :
    listFilter query =
      (if truthy (getProp query (utf16 "status")) then
          [(utf16 "status", getProp query (utf16 "status"))]
        else []) ++
        (if truthy (getProp query (utf16 "priority")) then
          [(utf16 "priority", getProp query (utf16 "priority"))]
        else []) := by
  simp only [listFilter]
  cases truthy (getProp query (utf16 "status")) <;>
    cases truthy (getProp query (utf16 "priority")) <;> rfl

theorem mapStore_find_sound (filter sort : JsObject) (db db1 : Db) (bugs : List JsVal)
    (h : mapStore.find filter sort db = (.ok bugs, db1)) :
    ∀ item ∈ bugs, ∀ kv ∈ filter, sameValueZero (fieldOf item kv.1) kv.2 = true := by
  have hb : bugs =
      if sameValueZero (getProp sort (utf16 "createdAt")) (.num (-1)) then
        ((db.docs.filter fun d => matchesFilter d.2 filter).map fun d => JsVal.obj d.2).reverse
      else (db.docs.filter fun d => matchesFilter d.2 filter).map fun d => JsVal.obj d.2 := by
    have h' := congrArg Prod.fst h
    simp only [mapStore] at h'
    exact (Except.ok.inj h').symm
  intro item hitem kv hkv
  have hmem : item ∈ (db.docs.filter fun d => matchesFilter d.2 filter).map
      fun d => JsVal.obj d.2 := by
    rw [hb] at hitem
    split at hitem
    · exact List.mem_reverse.mp hitem
    · exact hitem
  obtain ⟨d, hd, rfl⟩ := List.mem_map.mp hmem
  have hmatch : matchesFilter d.2 filter = true := (List.mem_filter.mp hd).2
  exact List.all_eq_true.mp hmatch kv hkv

/-- C19, as stated, fails: with the query `?status=` the status parameter is present,
yet the filter the List handler passes to the store has no condition at all, and both
bugs of the store are returned. -/
theorem listBugs_empty_status_counterexample :
    hasOwn emptyStatusQuery (utf16 "status") = true ∧
      listFilter emptyStatusQuery = [] ∧
      (listBugs mapStore (request [] emptyStatusQuery []) twoBugsDb).events.head? =
        some (.call (.find [] newestFirst)) ∧
      ((listBugs mapStore (request [] emptyStatusQuery []) twoBugsDb).events.map fun e =>
          match e with
          | .respond _ body => getProp body (utf16 "count")
          | _ => .undefined) =
        [.undefined, .num 2] :=
  ⟨rfl, rfl, rfl, rfl⟩

/-- C19, amended: for every query and store state, the filter the List handler passes
to the store holds an exact-match condition on status if and only if the status query
parameter is truthy (present and not empty), with that value, likewise for priority,
and no other condition; the handler asks for `{createdAt: -1}`, newest first; when the
store resolves with `bugs` it answers 200 with `{success: true, count, data}`, `data`
being `bugs` and `count` their number; so, for a store whose results match every
condition of the filter, every returned item matches each filter that was given. -/
theorem listBugs_spec {σ ε : Type} (store : Store σ ε) (req : Request) (s s1 : σ)
    (bugs : List JsVal)
    (hfind : store.find (listFilter req.query) newestFirst s = (.ok bugs, s1)) :
    (∀ key, key ∈ objectKeys (listFilter req.query) ↔
        (key = utf16 "status" ∧ truthy (getProp req.query (utf16 "status")) = true) ∨
          (key = utf16 "priority" ∧ truthy (getProp req.query (utf16 "priority")) = true)) ∧
      (truthy (getProp req.query (utf16 "status")) = true →
        getProp (listFilter req.query) (utf16 "status") = getProp req.query (utf16 "status")) ∧
      (truthy (getProp req.query (utf16 "priority")) = true →
        getProp (listFilter req.query) (utf16 "priority") =
          getProp req.query (utf16 "priority")) ∧
      newestFirst = [(utf16 "createdAt", .num (-1))] ∧
      listBugs store req s =
        { state := s1
          events :=
            [.call (.find (listFilter req.query) newestFirst),
             .respond 200
               [(utf16 "success", .bool true), (utf16 "count", .num bugs.length),
                (utf16 "data", .arr bugs)]] } ∧
      ((∀ item ∈ bugs, ∀ kv ∈ listFilter req.query,
          sameValueZero (fieldOf item kv.1) kv.2 = true) →
        (truthy (getProp req.query (utf16 "status")) = true →
          ∀ item ∈ bugs,
            sameValueZero (fieldOf item (utf16 "status")) (getProp req.query (utf16 "status")) =
              true) ∧
        (truthy (getProp req.query (utf16 "priority")) = true →
          ∀ item ∈ bugs,
            sameValueZero (fieldOf item (utf16 "priority"))
              (getProp req.query (utf16 "priority")) = true)) := by
  have hne : utf16 "priority" ≠ utf16 "status" := by decide
  refine ⟨?_, ?_, ?_, rfl, ?_, ?_⟩
  · intro key
    rw [listFilter_eq]
    cases h1 : truthy (getProp req.query (utf16 "status")) <;>
      cases h2 : truthy (getProp req.query (utf16 "priority")) <;> simp [objectKeys]
  · intro h1
    rw [listFilter_eq, h1]
    rfl
  · intro h2
    rw [listFilter_eq, h2]
    cases h1 : truthy (getProp req.query (utf16 "status"))
    · rfl
    · simp only [if_true, List.singleton_append]
      rw [getProp_cons, if_neg (fun e => hne e.symm), getProp_cons, if_pos rfl]
  · simp [listBugs, hfind]
  · intro hsound
    constructor
    · intro h1 item hitem
      refine hsound item hitem (utf16 "status", getProp req.query (utf16 "status")) ?_
      rw [listFilter_eq, h1]
      simp
    · intro h2 item hitem
      refine hsound item hitem (utf16 "priority", getProp req.query (utf16 "priority")) ?_
      rw [listFilter_eq, h2]
      simp

theorem listBugs_spec_witness :
    listBugs mapStore (request [] openQuery []) twoBugsDb =
        { state := twoBugsDb
          events :=
            [.call (.find [(utf16 "status", .str (utf16 "open"))] newestFirst),
             .respond 200
               [(utf16 "success", .bool true), (utf16 "count", .num 1),
                (utf16 "data", .arr [.obj openDoc])]] } ∧
      ∀ item ∈ [JsVal.obj openDoc],
        sameValueZero (fieldOf item (utf16 "status")) (.str (utf16 "open")) = true :=
  have h := listBugs_spec mapStore (request [] openQuery []) twoBugsDb twoBugsDb
    [.obj openDoc] rfl
  ⟨h.2.2.2.2.1,
    (h.2.2.2.2.2
      (mapStore_find_sound (listFilter openQuery) newestFirst twoBugsDb twoBugsDb _ rfl)).1 rfl⟩

/-! ## The `success` field -/

theorem successMatchesStatus_nil {ε : Type} : successMatchesStatus ([] : List (Event ε)) := by
  intro status body h
  cases h

theorem successMatchesStatus_call {ε : Type} {c : StoreCall} {rest : List (Event ε)}
    (h : successMatchesStatus rest) : successMatchesStatus (.call c :: rest) := by
  intro status body hmem
  rcases List.mem_cons.mp hmem with he | hrest
  · cases he
  · exact h status body hrest

theorem successMatchesStatus_next {ε : Type} {e : Thrown ε} {rest : List (Event ε)}
    (h : successMatchesStatus rest) : successMatchesStatus (.next e :: rest) := by
  intro status body hmem
  rcases List.mem_cons.mp hmem with he | hrest
  · cases he
  · exact h status body hrest

theorem successMatchesStatus_respond {ε : Type} {st : Nat} {b : JsObject}
    {rest : List (Event ε)}
    (hb : (getProp b (utf16 "success") = .bool true ∧ (st = 200 ∨ st = 201)) ∨
      (getProp b (utf16 "success") = .bool false ∧ (st = 400 ∨ st = 404)))
    (h : successMatchesStatus rest) : successMatchesStatus (.respond st b :: rest) := by
  intro status body hmem
  rcases List.mem_cons.mp hmem with he | hrest
  · cases he
    exact hb
  · exact h status body hrest

/-- C20: every response body sent by the five CRUD handlers and by the health endpoint
carries a boolean `success`, which is `true` exactly when the status is 200 or 201 and
`false` exactly when it is 400 or 404; no other status is sent. -/
theorem handlers_success_matches_status {σ ε : Type} (store : Store σ ε) (req : Request)
    (s : σ) :
    successMatchesStatus (listBugs store req s).events ∧
      successMatchesStatus (getBug store req s).events ∧
      successMatchesStatus (createBug store req s).events ∧
      successMatchesStatus (updateBug store req s).events ∧
      successMatchesStatus (deleteBug store req s).events ∧
      successMatchesStatus (health : List (Event ε)) := by
  have ok200 : ∀ (b : JsObject), getProp b (utf16 "success") = .bool true →
      successMatchesStatus ([.respond 200 b] : List (Event ε)) := fun b hb =>
    successMatchesStatus_respond (Or.inl ⟨hb, Or.inl rfl⟩) successMatchesStatus_nil
  have nf : successMatchesStatus ([.respond 404 notFoundBody] : List (Event ε)) :=
    successMatchesStatus_respond (Or.inr ⟨rfl, Or.inr rfl⟩) successMatchesStatus_nil
  have fail : ∀ e : Thrown ε, successMatchesStatus ([.next e] : List (Event ε)) := fun _ =>
    successMatchesStatus_next successMatchesStatus_nil
  refine ⟨?_, ?_, ?_, ?_, ?_, ok200 _ rfl⟩
  · simp only [listBugs]
    split
    · exact successMatchesStatus_call (ok200 _ rfl)
    · exact successMatchesStatus_call (fail _)
  · unfold getBug
    split
    · split
      · exact successMatchesStatus_call nf
      · exact successMatchesStatus_call (ok200 _ rfl)
    · exact successMatchesStatus_call (fail _)
  · unfold createBug
    split
    · exact fail _
    · split
      · exact successMatchesStatus_respond (Or.inr ⟨rfl, Or.inl rfl⟩) successMatchesStatus_nil
      · split
        · exact successMatchesStatus_call
            (successMatchesStatus_respond (Or.inl ⟨rfl, Or.inr rfl⟩) successMatchesStatus_nil)
        · exact successMatchesStatus_call (fail _)
  · unfold updateBug
    split
    · exact successMatchesStatus_call (fail _)
    · split
      · exact successMatchesStatus_call nf
      · split
        · exact successMatchesStatus_call (successMatchesStatus_call (ok200 _ rfl))
        · exact successMatchesStatus_call (successMatchesStatus_call (fail _))
  · unfold deleteBug
    split
    · exact successMatchesStatus_call (fail _)
    · split
      · exact successMatchesStatus_call nf
      · split
        · exact successMatchesStatus_call (successMatchesStatus_call (ok200 _ rfl))
        · exact successMatchesStatus_call (successMatchesStatus_call (fail _))

/-! ## Failures and the error path -/

/-- A failure of a store call is passed to `next`, once and unchanged, and no response
is sent: for each handler and each of its store calls. -/
theorem store_failure_delegated {σ ε : Type} (store : Store σ ε) (req : Request) (s : σ) :
    (∀ e s1, store.find (listFilter req.query) newestFirst s = (.error e, s1) →
        thrownErrors (listBugs store req s).events = [.store e] ∧
          responseStatuses (listBugs store req s).events = []) ∧
      (∀ e s1, store.findById req.id s = (.error e, s1) →
        (thrownErrors (getBug store req s).events = [.store e] ∧
          responseStatuses (getBug store req s).events = []) ∧
        (thrownErrors (updateBug store req s).events = [.store e] ∧
          responseStatuses (updateBug store req s).events = []) ∧
        (thrownErrors (deleteBug store req s).events = [.store e] ∧
          responseStatuses (deleteBug store req s).events = [])) ∧
      (∀ r e s1, validateBugData req.body = .ok r → r.isValid = true →
        store.create (sanitizedData req.body) s = (.error e, s1) →
        thrownErrors (createBug store req s).events = [.store e] ∧
          responseStatuses (createBug store req s).events = []) ∧
      (∀ bug s1 e s2, store.findById req.id s = (.ok bug, s1) → truthy bug = true →
        store.findByIdAndUpdate req.id (buildUpdates req.body) updateOptions s1 =
          (.error e, s2) →
        thrownErrors (updateBug store req s).events = [.store e] ∧
          responseStatuses (updateBug store req s).events = []) ∧
      ∀ bug s1 e s2, store.findById req.id s = (.ok bug, s1) → truthy bug = true →
        store.findByIdAndDelete req.id s1 = (.error e, s2) →
        thrownErrors (deleteBug store req s).events = [.store e] ∧
          responseStatuses (deleteBug store req s).events = [] := by
  refine ⟨?_, ?_, ?_, ?_, ?_⟩
  · intro e s1 h
    simp [listBugs, h, thrownErrors, responseStatuses]
  · intro e s1 h
    simp [getBug, updateBug, deleteBug, h, thrownErrors, responseStatuses]
  · intro r e s1 h hv hc
    simp [createBug, h, hv, hc, thrownErrors, responseStatuses]
  · intro bug s1 e s2 h hb hu
    simp [updateBug, h, hb, hu, thrownErrors, responseStatuses]
  · intro bug s1 e s2 h hb hd
    simp [deleteBug, h, hb, hd, thrownErrors, responseStatuses]

/-- When the validator returns and no store call fails, a handler sends exactly one
response and does not call `next`. -/
theorem one_response_without_failure {σ ε : Type} (store : Store σ ε) (req : Request)
    (s : σ) :
    (∀ bugs s1, store.find (listFilter req.query) newestFirst s = (.ok bugs, s1) →
        (responseStatuses (listBugs store req s).events).length = 1 ∧
          thrownErrors (listBugs store req s).events = []) ∧
      (∀ bug s1, store.findById req.id s = (.ok bug, s1) →
        (responseStatuses (getBug store req s).events).length = 1 ∧
          thrownErrors (getBug store req s).events = []) ∧
      (∀ r, validateBugData req.body = .ok r →
        (r.isValid = true → ∃ bug s1, store.create (sanitizedData req.body) s = (.ok bug, s1)) →
        (responseStatuses (createBug store req s).events).length = 1 ∧
          thrownErrors (createBug store req s).events = []) ∧
      (∀ bug s1, store.findById req.id s = (.ok bug, s1) →
        (truthy bug = true → ∃ updated s2,
          store.findByIdAndUpdate req.id (buildUpdates req.body) updateOptions s1 =
            (.ok updated, s2)) →
        (responseStatuses (updateBug store req s).events).length = 1 ∧
          thrownErrors (updateBug store req s).events = []) ∧
      ∀ bug s1, store.findById req.id s = (.ok bug, s1) →
        (truthy bug = true → ∃ deleted s2,
          store.findByIdAndDelete req.id s1 = (.ok deleted, s2)) →
        (responseStatuses (deleteBug store req s).events).length = 1 ∧
          thrownErrors (deleteBug store req s).events = [] := by
  refine ⟨?_, ?_, ?_, ?_, ?_⟩
  · intro bugs s1 h
    simp [listBugs, h, thrownErrors, responseStatuses]
  · intro bug s1 h
    cases hb : truthy bug <;> simp [getBug, h, hb, thrownErrors, responseStatuses]
  · intro r h hc
    cases hv : r.isValid
    · simp [createBug, h, hv, thrownErrors, responseStatuses]
    · obtain ⟨bug, s1, hc⟩ := hc hv
      simp [createBug, h, hv, hc, thrownErrors, responseStatuses]
  · intro bug s1 h hu
    cases hb : truthy bug
    · simp [updateBug, h, hb, thrownErrors, responseStatuses]
    · obtain ⟨updated, s2, hu⟩ := hu hb
      simp [updateBug, h, hb, hu, thrownErrors, responseStatuses]
  · intro bug s1 h hd
    cases hb : truthy bug
    · simp [deleteBug, h, hb, thrownErrors, responseStatuses]
    · obtain ⟨deleted, s2, hd⟩ := hd hb
      simp [deleteBug, h, hb, hd, thrownErrors, responseStatuses]

/-- C21 fails on the code: for the body `{title: 123, description: 'Valid description
here', reportedBy: 'John'}` the Create handler makes no store call, so none fails, yet
it sends no response and calls `next` with the `TypeError` that `validateBugData`
raised. -/
theorem createBug_next_without_store_failure :
    createBug mapStore (request [] [] (bodyWithTitle (.num 123))) emptyDb =
        { state := emptyDb, events := [.next (.js .typeError)] } ∧
      responseStatuses
          (createBug mapStore (request [] [] (bodyWithTitle (.num 123))) emptyDb).events = [] ∧
      thrownErrors
          (createBug mapStore (request [] [] (bodyWithTitle (.num 123))) emptyDb).events =
        [.js .typeError] :=
  ⟨rfl, rfl, rfl⟩

theorem str_of_includes {xs : List JsString} {v : JsVal} (h : includes xs v = true) :
    ∃ x, x ∈ xs ∧ v = .str x := by
  simp only [includes, List.any_eq_true] at h
  obtain ⟨x, hx, hsame⟩ := h
  cases v with
  | str t =>
    have : x = t := by simpa [sameValueZero] using hsame
    exact ⟨x, hx, by rw [this]⟩
  | _ => simp [sameValueZero] at hsame

theorem enum_or_default {valid : List JsString} {v : JsVal} {d : JsString}
    (h : truthy v = true → includes valid v = true) (hd : d ∈ valid) :
    ∃ x, x ∈ valid ∧ (if truthy v then v else JsVal.str d) = .str x := by
  cases ht : truthy v
  · exact ⟨d, hd, by simp⟩
  · obtain ⟨x, hx, rfl⟩ := str_of_includes (h ht)
    exact ⟨x, hx, by simp⟩

/-- C23: every record the Create handler passes to the store has a status that is one
of `'open'`, `'in-progress'`, `'resolved'` and a priority that is one of `'low'`,
`'medium'`, `'high'`, `'critical'`, whatever the request body and the store. -/
theorem createBug_record_enums {σ ε : Type} (store : Store σ ε) (req : Request) (s : σ)
    (data : JsObject) (h : Event.call (.create data) ∈ (createBug store req s).events) :
    (∃ x, x ∈ validStatuses ∧ getProp data (utf16 "status") = .str x) ∧
      ∃ y, y ∈ validPriorities ∧ getProp data (utf16 "priority") = .str y := by
  unfold createBug at h
  cases hv : validateBugData req.body with
  | error e =>
    rw [hv] at h
    simp at h
  | ok r =>
    rw [hv] at h
    cases hval : r.isValid
    · simp [hval] at h
    · have hdata : data = sanitizedData req.body := by
        simp only [hval, Bool.not_true, Bool.false_eq_true, if_false] at h
        split at h <;> simpa using h
      subst hdata
      obtain ⟨-, -, -, hs, hp⟩ := validateBugData_accepted hv hval
      exact ⟨enum_or_default hs (by decide), enum_or_default hp (by decide)⟩

theorem createBug_record_enums_witness :
    (∃ x, x ∈ validStatuses ∧
        getProp (sanitizedData (bodyWithPriority (.str (utf16 "high")))) (utf16 "status") =
          .str x) ∧
      ∃ y, y ∈ validPriorities ∧
        getProp (sanitizedData (bodyWithPriority (.str (utf16 "high")))) (utf16 "priority") =
          .str y :=
  createBug_record_enums mapStore (request [] [] (bodyWithPriority (.str (utf16 "high"))))
    emptyDb (sanitizedData (bodyWithPriority (.str (utf16 "high"))))
    (List.mem_cons_self _ _)

/-! ## The form -/

theorem failsRequired_str {n : Nat} (hn : 0 < n) (t : JsString) :
    failsRequired (.str t) n = decide ((trim t).length < n) := by
  cases t with
  | nil => simp [failsRequired, truthy, trim_nil, hn]
  | cons c cs => rfl

/-- The function `validateForm` in closed form: it raises exactly when a required field
is a truthy non-string, and otherwise records one entry per failing field, in the order
title, description, reportedBy, and returns `true` exactly when there is none. -/
theorem validateForm_eq (fd : FormData) :
    validateForm fd =
      if (trimSafe fd.title && trimSafe fd.description && trimSafe fd.reportedBy) = true then
        .ok
          ((if failsRequired fd.title 3 then
              [(utf16 "title", JsVal.str (utf16 "Title must be at least 3 characters"))]
            else []) ++
            ((if failsRequired fd.description 10 then
                [(utf16 "description",
                  JsVal.str (utf16 "Description must be at least 10 characters"))]
              else []) ++
              (if failsRequired fd.reportedBy 1 then
                [(utf16 "reportedBy", JsVal.str (utf16 "Reporter name is required"))]
              else [])),
            !failsRequired fd.title 3 && !failsRequired fd.description 10 &&
              !failsRequired fd.reportedBy 1)
      else .error .typeError := by
  unfold validateForm
  rw [requiredCheck_lt, requiredCheck_lt, requiredCheck_eq]
  generalize trimSafe fd.title = x1
  generalize trimSafe fd.description = x2
  generalize trimSafe fd.reportedBy = x3
  generalize failsRequired fd.title 3 = a
  generalize failsRequired fd.description 10 = b
  generalize failsRequired fd.reportedBy 1 = c
  cases x1 <;> cases x2 <;> cases x3 <;> cases a <;> cases b <;> cases c <;> rfl

/-- C22 fails on the code: rendered with `initialData = {title: 12345, description:
'Existing description', reportedBy: 'Original Reporter'}` the form keeps the number as
its title, and submitting raises a `TypeError` in `validateForm`: `onSubmit` is not
called and `setErrors` is never reached, so `errors` does not receive the title
message. -/
theorem handleSubmit_throws_on_non_string_title :
    (initialFormData numericTitleData).title = .num 12345 ∧
      formPasses (initialFormData numericTitleData) = false ∧
      validateForm (initialFormData numericTitleData) = .error .typeError ∧
      handleSubmit numericTitleData
          { formData := initialFormData numericTitleData, errors := [] } =
        .error .typeError :=
  ⟨rfl, rfl, rfl, rfl⟩

theorem str_of_typeofString {v : JsVal} (h : typeofString v = true) : ∃ t, v = .str t := by
  cases v with
  | str t => exact ⟨t, rfl⟩
  | _ => simp [typeofString] at h

/-- On a form whose three required fields hold strings, as inputs set them, submitting
calls `onSubmit` once with the form data when the validation passes, and otherwise
calls nothing, keeps the form data and records the message of each failing field. -/
theorem handleSubmit_on_strings (initialData : JsVal) (st : FormState) (t d r : JsString)
    (ht : st.formData.title = .str t) (hd : st.formData.description = .str d)
    (hr : st.formData.reportedBy = .str r) :
    (formPasses st.formData = true →
        handleSubmit initialData st =
          .ok
            { state :=
                { formData := if !truthy initialData then blankForm else st.formData
                  errors := [] }
              submitted := [st.formData] }) ∧
      (formPasses st.formData = false →
        handleSubmit initialData st =
          .ok
            { state :=
                { formData := st.formData
                  errors :=
                    (if (trim t).length < 3 then
                        [(utf16 "title",
                          JsVal.str (utf16 "Title must be at least 3 characters"))]
                      else []) ++
                      ((if (trim d).length < 10 then
                          [(utf16 "description",
                            JsVal.str (utf16 "Description must be at least 10 characters"))]
                        else []) ++
                        (if trim r = [] then
                          [(utf16 "reportedBy", JsVal.str (utf16 "Reporter name is required"))]
                        else [])) }
              submitted := [] }) := by
  have hblank : trim r = [] ↔ (trim r).length < 1 := by
    cases trim r <;> simp
  have hpass : formPasses st.formData =
      (!decide ((trim t).length < 3) && !decide ((trim d).length < 10) &&
        !decide ((trim r).length < 1)) := by
    have h1 : decide (3 ≤ (trim t).length) = !decide ((trim t).length < 3) := by
      by_cases h : (trim t).length < 3
      · simp [h]
      · simp [h]
        omega
    have h2 : decide (10 ≤ (trim d).length) = !decide ((trim d).length < 10) := by
      by_cases h : (trim d).length < 10
      · simp [h]
      · simp [h]
        omega
    have h3 : decide (trim r ≠ []) = !decide ((trim r).length < 1) := by
      cases trim r <;> simp
    simp only [formPasses, ht, hd, hr, h1, h2, h3]
  unfold handleSubmit
  rw [validateForm_eq, ht, hd, hr, trimSafe_str, trimSafe_str, trimSafe_str,
    failsRequired_str (by decide), failsRequired_str (by decide),
    failsRequired_str (by decide), hpass]
  simp only [hblank]
  by_cases hA : (trim t).length < 3 <;> by_cases hB : (trim d).length < 10 <;>
    by_cases hC : (trim r).length < 1 <;> simp [hA, hB, hC]

/-- C24: the validator of the form and the validator of the server agree: for every
form data whose title, description and reportedBy are strings and whose status and
priority are members of their enums, both validators return, `validateForm` returns
true if and only if `validateBugData(formData).isValid` is true, and the messages
`validateForm` records, one per failing field, are the messages of
`validateBugData(formData).errors`, in the same order. -/
theorem validators_agree (fd : FormData) (ht : typeofString fd.title = true)
    (hd : typeofString fd.description = true) (hr : typeofString fd.reportedBy = true)
    (hs : includes validStatuses fd.status = true)
    (hp : includes validPriorities fd.priority = true) :
    ∃ r newErrors valid, validateBugData fd.toObject = .ok r ∧
      validateForm fd = .ok (newErrors, valid) ∧
      (valid = true ↔ r.isValid = true) ∧
      newErrors.map Prod.snd = r.errors.map fun m => JsVal.str (utf16 m) := by
  obtain ⟨t, ht⟩ := str_of_typeofString ht
  obtain ⟨d, hd⟩ := str_of_typeofString hd
  obtain ⟨r, hr⟩ := str_of_typeofString hr
  have gt : getProp fd.toObject (utf16 "title") = fd.title := rfl
  have gd : getProp fd.toObject (utf16 "description") = fd.description := rfl
  have gr : getProp fd.toObject (utf16 "reportedBy") = fd.reportedBy := rfl
  have gs : getProp fd.toObject (utf16 "status") = fd.status := rfl
  have gp : getProp fd.toObject (utf16 "priority") = fd.priority := rfl
  have es : (truthy fd.status && !includes validStatuses fd.status) = false := by simp [hs]
  have ep : (truthy fd.priority && !includes validPriorities fd.priority) = false := by
    simp [hp]
  rw [validateBugData_eq, validateForm_eq, gt, gd, gr, gs, gp, es, ep, ht, hd, hr,
    trimSafe_str, trimSafe_str, trimSafe_str]
  generalize failsRequired (.str t) 3 = a
  generalize failsRequired (.str d) 10 = b
  generalize failsRequired (.str r) 1 = c
  refine ⟨_, _, _, rfl, rfl, ?_, ?_⟩
  · cases a <;> cases b <;> cases c <;> decide
  · cases a <;> cases b <;> cases c <;> rfl

theorem validators_agree_witness :
    ∃ r newErrors valid, validateBugData shortForm.toObject = .ok r ∧
      validateForm shortForm = .ok (newErrors, valid) ∧
      (valid = true ↔ r.isValid = true) ∧
      newErrors.map Prod.snd = r.errors.map fun m => JsVal.str (utf16 m) :=
  validators_agree shortForm rfl rfl rfl rfl rfl

end BugTracker
